import Mathlib

/-!
# nate_DynMemory / nate_Task

A shallow embedding of `nate_DynMemory.h` (the `ArrayBuffer` part) and of
`nate_Task.h` (both build variants), followed by theorems about them.

Conventions of the embedding.

* `size_t` is 64 bits wide and `int` is 32 bits wide (two complement, wrapping).
  Numbers are `Nat` / `Int` and every place where C arithmetic can wrap carries
  an explicit `% 2 ^ 64` or `int_wrap`.
* A pointer to a heap block is `Option (List α)`: `none` is `NULL`, `some cells`
  is a block holding the listed cells. Function pointers and user data pointers
  are addresses (`Nat`), `0` being `NULL`.
* A pointer to a struct that a function receives (`ArrayBuffer* buffer`) is an
  `Option` of the struct value, `none` being `NULL`; the function gives back the
  struct value behind the pointer.
* Calls into the C library, into SDL and into task actions are recorded, in
  order, in a trace of `Event`s. What the outside world answers (does `realloc`
  succeed, is the thread complete, ...) is an argument of the function.
* A function that reads or writes cells returns `Option`: `none` stands for an
  access outside the block or through `NULL` (undefined behaviour in C).
-/

namespace Nate

/-- Values of the enum `SDL_ThreadState`. -/
inductive SDL_ThreadState where
  | SDL_THREAD_UNKNOWN
  | SDL_THREAD_ALIVE
  | SDL_THREAD_DETACHED
  | SDL_THREAD_COMPLETE
deriving DecidableEq, Repr

/-- One call that leaves the program: into the allocator, into a task action or into SDL. -/
inductive Event where
  | realloc (bytes : Nat) (ok : Bool)
  | free
  | call (function userdata : Nat)
  | SDL_CreateMutex (res : Option Nat)
  | SDL_DestroyMutex (m : Nat)
  | SDL_LockMutex (m : Option Nat)
  | SDL_UnlockMutex (m : Option Nat)
  | SDL_CreateThread (res : Option Nat)
  | SDL_GetThreadState (t : Nat) (state : SDL_ThreadState)
  | SDL_WaitThread (t : Nat)
  | SDL_LogError
deriving DecidableEq, Repr

/-- What a call leaves behind: the returned value, the state it wrote and the calls it made. -/
structure Ret (ρ σ : Type) where
  ret : ρ
  st : σ
  trace : List Event
deriving DecidableEq, Repr

/-! ## nate_DynMemory.h -/

/-- The struct `ArrayBuffer`: `data` points to a block of cells, `size` is the number of
cells in use, `allocated` the number of cells asked from the allocator. -/
structure ArrayBuffer (α : Type) where
  data : Option (List α)
  size : Nat
  allocated : Nat
deriving DecidableEq, Repr

/-- The macro `ArrayBuffer0`, that is `(ArrayBuffer){0}`. -/
def ArrayBuffer0 {α : Type} : ArrayBuffer α := ⟨none, 0, 0⟩

/-- The library call `realloc(ptr, bytes)` on a block seen as cells of `elem_size` bytes.
`heap` is the answer of the allocator: `none` when it returns `NULL`, `some fresh` when it
returns a block, whose cells keep the old content as far as the old block reaches and hold
the indeterminate values `fresh i` beyond. On a `NULL` answer the old block stays as it is.
That is the behaviour of `realloc` for a request of at least one byte. A request of 0 bytes
is left to the implementation in C (the library may free the old block and return `NULL`)
and is not covered by this definition: statements that depend on what `realloc` does carry
the condition `bytes ≠ 0`. The task queue never asks for 0 bytes. -/
def realloc {α : Type} (ptr : Option (List α)) (elem_size bytes : Nat)
    (heap : Option (Nat → α)) : Option (List α) :=
  match heap with
  | none => none
  | some fresh =>
    some ((List.range (bytes / elem_size)).map (fun i => (ptr.getD []).getD i (fresh i)))

/-- `void nate_ArrayBuffer_Free(ArrayBuffer* buffer)` -/
def nate_ArrayBuffer_Free {α : Type} (buffer : Option (ArrayBuffer α)) :
    Ret Unit (Option (ArrayBuffer α)) :=
  match buffer with
  | none => ⟨(), none, []⟩                              -- if (!buffer) return;
  | some b =>
    match b.data with
    | none => ⟨(), some b, []⟩                          -- if (!buffer->data) return;
    | some _ => ⟨(), some ⟨none, 0, 0⟩, [Event.free]⟩   -- free; data = NULL; allocated = 0; size = 0

/-- `int nate_ArrayBuffer_Alloc(ArrayBuffer* buffer, size_t elem_size, size_t size)` -/
def nate_ArrayBuffer_Alloc {α : Type} (buffer : Option (ArrayBuffer α)) (elem_size size : Nat)
    (heap : Option (Nat → α)) : Ret Nat (Option (ArrayBuffer α)) :=
  match buffer with
  | none => ⟨0, none, []⟩                               -- if (!buffer) return 0;
  | some b =>
    if b.allocated ≥ size then
      ⟨1, some b, []⟩
    else if size = 0 then
      let r := nate_ArrayBuffer_Free (some b)
      ⟨1, r.st, r.trace⟩
    else
      let bytes := (elem_size * size) % 2 ^ 64
      match realloc b.data elem_size bytes heap with
      | none => ⟨0, some b, [Event.realloc bytes false]⟩  -- if (!new_mem) return 0;
      | some new_mem => ⟨1, some ⟨some new_mem, b.size, size⟩, [Event.realloc bytes true]⟩

/-! ## nate_Task.h : collecting tasks -/

/-- The struct `nate_OneTask`: a function pointer and its user data pointer. -/
structure nate_OneTask where
  function : Nat
  userdata : Nat
deriving DecidableEq, Repr

/-- `sizeof(nate_OneTask)`: two pointers of eight bytes. -/
def sizeof_nate_OneTask : Nat := 16

/-- Reduction of an integer into the range of `int`, from `-2^31` to `2^31 - 1`. -/
def int_wrap (x : Int) : Int := (x + 2 ^ 31) % 2 ^ 32 - 2 ^ 31

/-- The conversion of `int new_size = s_Tasks.size;`. -/
def int_of_size_t (n : Nat) : Int := int_wrap (n : Int)

/-- The conversion of an `int` argument to a `size_t` parameter. -/
def size_t_of_int (x : Int) : Nat := (x % 2 ^ 64).toNat

/-- The growth target of `s_add_task_sync`: `new_size = size; if (new_size) new_size <<= 1;
else new_size = 8;` in `int`, then passed as `size_t`. -/
def s_add_task_sync_new_size (size : Nat) : Nat :=
  let new_size := int_of_size_t size
  let new_size := if new_size ≠ 0 then int_wrap (new_size * 2) else 8
  size_t_of_int new_size

/-- The tail of `s_add_task_sync`: `s_TasksData[s_Tasks.size] = ...; s_Tasks.size++;
return true;`, `trace` being the calls made so far. -/
def s_add_task_sync_store (s_Tasks : ArrayBuffer nate_OneTask) (function userdata : Nat)
    (trace : List Event) : Option (Ret Bool (ArrayBuffer nate_OneTask)) :=
  match s_Tasks.data with
  | none => none
  | some cells =>
    if s_Tasks.size < cells.length then
      some ⟨true,
        ⟨some (cells.set s_Tasks.size ⟨function, userdata⟩), (s_Tasks.size + 1) % 2 ^ 64,
          s_Tasks.allocated⟩,
        trace⟩
    else none

/-- `static bool s_add_task_sync(nate_Task function, void* userdata)` on the global `s_Tasks`. -/
def s_add_task_sync (s_Tasks : ArrayBuffer nate_OneTask) (function userdata : Nat)
    (heap : Option (Nat → nate_OneTask)) : Option (Ret Bool (ArrayBuffer nate_OneTask)) :=
  if s_Tasks.size ≥ s_Tasks.allocated then
    let a := nate_ArrayBuffer_Alloc (some s_Tasks) sizeof_nate_OneTask
      (s_add_task_sync_new_size s_Tasks.size) heap
    if a.ret = 0 then
      some ⟨false, a.st.getD s_Tasks, a.trace⟩
    else
      s_add_task_sync_store (a.st.getD s_Tasks) function userdata a.trace
  else
    s_add_task_sync_store s_Tasks function userdata []

/-- The loop `for (; i < size; i++) s_TasksData[i] = s_TasksData[i+1];` with `remaining`
iterations to go, that is `remaining = size - i`. -/
def s_fetch_task_sync_loop (cells : List nate_OneTask) (i : Nat) :
    (remaining : Nat) → Option (List nate_OneTask)
  | 0 => some cells
  | remaining + 1 =>
    match cells[i + 1]? with
    | none => none
    | some next =>
      if i < cells.length then
        s_fetch_task_sync_loop (cells.set i next) (i + 1) remaining
      else none

/-- `static nate_OneTask s_fetch_task_sync()` on the global `s_Tasks`. -/
def s_fetch_task_sync (s_Tasks : ArrayBuffer nate_OneTask) :
    Option (Ret nate_OneTask (ArrayBuffer nate_OneTask)) :=
  if s_Tasks.size > 0 then
    match s_Tasks.data with
    | none => none
    | some cells =>
      match cells[0]? with
      | none => none
      | some res =>
        match s_fetch_task_sync_loop cells 0 (s_Tasks.size - 1) with
        | none => none
        | some cells1 => some ⟨res, ⟨some cells1, s_Tasks.size - 1, s_Tasks.allocated⟩, []⟩
  else
    some ⟨⟨0, 0⟩, s_Tasks, []⟩

/-! ## nate_Task.h : the build with `NATE_TASK_NO_THREAD` -/

namespace NATE_TASK_NO_THREAD

/-- `bool nate_Task_Init(){ return true; }` -/
def nate_Task_Init (s_Tasks : ArrayBuffer nate_OneTask) : Ret Bool (ArrayBuffer nate_OneTask) :=
  ⟨true, s_Tasks, []⟩

/-- `void nate_Task_Deinit(){}` -/
def nate_Task_Deinit (s_Tasks : ArrayBuffer nate_OneTask) : Ret Unit (ArrayBuffer nate_OneTask) :=
  ⟨(), s_Tasks, []⟩

/-- `bool nate_Task_Add(nate_Task function, void* userdata)` -/
def nate_Task_Add (s_Tasks : ArrayBuffer nate_OneTask) (function userdata : Nat)
    (heap : Option (Nat → nate_OneTask)) : Option (Ret Bool (ArrayBuffer nate_OneTask)) :=
  s_add_task_sync s_Tasks function userdata heap

/-- `void nate_Task_Update()`: fetches one task and, when its function is not `NULL`, calls it.
The call is recorded as `Event.call`; the action is taken not to touch `s_Tasks`. -/
def nate_Task_Update (s_Tasks : ArrayBuffer nate_OneTask) :
    Option (Ret Unit (ArrayBuffer nate_OneTask)) :=
  match s_fetch_task_sync s_Tasks with
  | none => none
  | some curr_task =>
    if curr_task.ret.function ≠ 0 then
      some ⟨(), curr_task.st,
        curr_task.trace ++ [Event.call curr_task.ret.function curr_task.ret.userdata]⟩
    else
      some ⟨(), curr_task.st, curr_task.trace⟩

end NATE_TASK_NO_THREAD

/-! ## nate_Task.h : the build with `NATE_TASK_SDL3_THREAD` -/

namespace NATE_TASK_SDL3_THREAD

/-- The globals of the threaded build: the task buffer, `s_mutex` and `s_thread`
(`none` is `NULL`, `some h` a handle given out by SDL). -/
structure Runner where
  s_Tasks : ArrayBuffer nate_OneTask
  s_mutex : Option Nat
  s_thread : Option Nat
deriving DecidableEq, Repr

/-- `static void s_CleanMutex()` -/
def s_CleanMutex (st : Runner) : Ret Unit Runner :=
  match st.s_mutex with
  | some m => ⟨(), { st with s_mutex := none }, [Event.SDL_DestroyMutex m]⟩
  | none => ⟨(), st, []⟩

/-- `static void s_CleanThread()` -/
def s_CleanThread (st : Runner) : Ret Unit Runner :=
  match st.s_thread with
  | some t => ⟨(), { st with s_thread := none }, [Event.SDL_WaitThread t]⟩
  | none => ⟨(), st, []⟩

/-- `static bool s_EnsureMutex()`; `created` is what `SDL_CreateMutex` returns when called. -/
def s_EnsureMutex (st : Runner) (created : Option Nat) : Ret Bool Runner :=
  match st.s_mutex with
  | some _ => ⟨true, st, []⟩
  | none =>
    match created with
    | some m => ⟨true, { st with s_mutex := some m }, [Event.SDL_CreateMutex (some m)]⟩
    | none => ⟨false, { st with s_mutex := none }, [Event.SDL_CreateMutex none, Event.SDL_LogError]⟩

/-- `static void s_JoinJoinableThread()`; `state` is what `SDL_GetThreadState` returns
when called. -/
def s_JoinJoinableThread (st : Runner) (state : SDL_ThreadState) : Ret Unit Runner :=
  match st.s_thread with
  | some t =>
    if state = SDL_ThreadState.SDL_THREAD_COMPLETE then
      ⟨(), { st with s_thread := none },
        [Event.SDL_GetThreadState t state, Event.SDL_WaitThread t]⟩
    else
      ⟨(), st, [Event.SDL_GetThreadState t state]⟩
  | none => ⟨(), st, []⟩

/-- The loop of `s_worker_function`, run on its own (no other thread touches the globals
in between, and the actions are taken not to touch them): `do { lock; fetch; unlock; if
(function) call; } while (function);`. `fuel` bounds the number of iterations. -/
def s_worker_function_loop : (fuel : Nat) → Runner → List Event → Option (Ret Int Runner)
  | 0, _, _ => none
  | fuel + 1, st, trace =>
    match s_fetch_task_sync st.s_Tasks with
    | none => none
    | some curr_task =>
      let st1 : Runner := { st with s_Tasks := curr_task.st }
      let trace1 := trace ++ [Event.SDL_LockMutex st.s_mutex] ++ curr_task.trace ++
        [Event.SDL_UnlockMutex st.s_mutex]
      if curr_task.ret.function ≠ 0 then
        s_worker_function_loop fuel st1
          (trace1 ++ [Event.call curr_task.ret.function curr_task.ret.userdata])
      else
        some ⟨0, st1, trace1⟩

/-- `static int s_worker_function(void* _)`, with one iteration more than there are tasks. -/
def s_worker_function (st : Runner) : Option (Ret Int Runner) :=
  s_worker_function_loop (st.s_Tasks.size + 1) st []

/-- `static bool s_EnsureRunningThread()`; `state` answers `SDL_GetThreadState` and
`created` answers `SDL_CreateThread`. The thread that is created runs on its own. -/
def s_EnsureRunningThread (st : Runner) (state : SDL_ThreadState) (created : Option Nat) :
    Ret Bool Runner :=
  let j := s_JoinJoinableThread st state
  match j.st.s_thread with
  | some _ => ⟨true, j.st, j.trace⟩
  | none =>
    match created with
    | some t =>
      ⟨true, { j.st with s_thread := some t }, j.trace ++ [Event.SDL_CreateThread (some t)]⟩
    | none =>
      let c := s_CleanMutex { j.st with s_thread := none }
      ⟨false, c.st, j.trace ++ [Event.SDL_CreateThread none, Event.SDL_LogError] ++ c.trace⟩

/-- `bool nate_Task_Init()` -/
def nate_Task_Init (st : Runner) (created : Option Nat) : Ret Bool Runner :=
  s_EnsureMutex st created

/-- `void nate_Task_Deinit()` -/
def nate_Task_Deinit (st : Runner) : Ret Unit Runner :=
  let m := s_CleanMutex st
  let t := s_CleanThread m.st
  ⟨(), t.st, m.trace ++ t.trace⟩

/-- `bool nate_Task_Add(nate_Task function, void* userdata)` -/
def nate_Task_Add (st : Runner) (function userdata : Nat)
    (heap : Option (Nat → nate_OneTask)) : Option (Ret Bool Runner) :=
  match s_add_task_sync st.s_Tasks function userdata heap with
  | none => none
  | some res =>
    some ⟨res.ret, { st with s_Tasks := res.st },
      [Event.SDL_LockMutex st.s_mutex] ++ res.trace ++ [Event.SDL_UnlockMutex st.s_mutex]⟩

/-- `void nate_Task_Update()` -/
def nate_Task_Update (st : Runner) (state : SDL_ThreadState) (created : Option Nat) :
    Ret Unit Runner :=
  if st.s_Tasks.size ≠ 0 then
    let e := s_EnsureRunningThread st state created
    ⟨(), e.st,
      [Event.SDL_LockMutex st.s_mutex] ++ e.trace ++ [Event.SDL_UnlockMutex e.st.s_mutex]⟩
  else
    let j := s_JoinJoinableThread st state
    if j.st.s_Tasks.allocated ≠ 0 then
      let f := nate_ArrayBuffer_Free (some j.st.s_Tasks)
      ⟨(), { j.st with s_Tasks := f.st.getD j.st.s_Tasks },
        [Event.SDL_LockMutex st.s_mutex] ++ j.trace ++ f.trace ++
          [Event.SDL_UnlockMutex j.st.s_mutex]⟩
    else
      ⟨(), j.st,
        [Event.SDL_LockMutex st.s_mutex] ++ j.trace ++ [Event.SDL_UnlockMutex j.st.s_mutex]⟩

end NATE_TASK_SDL3_THREAD

/-! ## Vocabulary of the statements -/

/-- The queue `s` holds exactly the items `q`: they are the first `size` cells of the block
behind `data`, and that block has fewer cells than `size_t` has values. -/
def Holds (s : ArrayBuffer nate_OneTask) (q : List nate_OneTask) : Prop :=
  s.size = q.length ∧ (s.data.getD []).take s.size = q ∧ (s.data.getD []).length < 2 ^ 64

/-- The states of `s_Tasks` that enqueue and dequeue calls produce from `ArrayBuffer0`, when
the function pointer of every enqueue call satisfies `P`. -/
inductive Reachable (P : Nat → Prop) : ArrayBuffer nate_OneTask → Prop where
  | empty : Reachable P ArrayBuffer0
  | enqueue {s : ArrayBuffer nate_OneTask} {r : Ret Bool (ArrayBuffer nate_OneTask)}
      (function userdata : Nat) (heap : Option (Nat → nate_OneTask)) :
      Reachable P s → P function → s_add_task_sync s function userdata heap = some r →
      Reachable P r.st
  | dequeue {s : ArrayBuffer nate_OneTask} {r : Ret nate_OneTask (ArrayBuffer nate_OneTask)} :
      Reachable P s → s_fetch_task_sync s = some r → Reachable P r.st

/-- The number `cap` is the smallest value of the form `8 * 2 ^ j` that is at least `k`. -/
def SmallestDoubling (cap k : Nat) : Prop :=
  (∃ j, cap = 8 * 2 ^ j) ∧ k ≤ cap ∧ ∀ j, k ≤ 8 * 2 ^ j → cap ≤ 8 * 2 ^ j

/-- The store invariant of the data model: `size ≤ allocated`, and `data` is not `NULL`
whenever `allocated > 0`. -/
def StoreInvariant {α : Type} (b : ArrayBuffer α) : Prop :=
  b.size ≤ b.allocated ∧ (0 < b.allocated → b.data ≠ none)

namespace NATE_TASK_NO_THREAD

/-- A caller that makes one `nate_Task_Add` call per listed task, in order, each with the
answer its allocation gets; it collects the returned booleans. -/
def add_each (s_Tasks : ArrayBuffer nate_OneTask) :
    List (nate_OneTask × Option (Nat → nate_OneTask)) →
    Option (Ret (List Bool) (ArrayBuffer nate_OneTask))
  | [] => some ⟨[], s_Tasks, []⟩
  | (task, heap) :: rest =>
    match nate_Task_Add s_Tasks task.function task.userdata heap with
    | none => none
    | some r =>
      match add_each r.st rest with
      | none => none
      | some rs => some ⟨r.ret :: rs.ret, rs.st, r.trace ++ rs.trace⟩

/-- A caller that makes `n` calls of `nate_Task_Update` in a row. -/
def update_times : Nat → ArrayBuffer nate_OneTask → Option (Ret Unit (ArrayBuffer nate_OneTask))
  | 0, s_Tasks => some ⟨(), s_Tasks, []⟩
  | n + 1, s_Tasks =>
    match nate_Task_Update s_Tasks with
    | none => none
    | some r =>
      match update_times n r.st with
      | none => none
      | some rs => some ⟨(), rs.st, r.trace ++ rs.trace⟩

end NATE_TASK_NO_THREAD

/-- The task actions that a trace calls, in order, each as the pair of the function and the
user data it is called with. -/
def calls (trace : List Event) : List nate_OneTask :=
  trace.filterMap (fun e =>
    match e with
    | Event.call function userdata => some ⟨function, userdata⟩
    | _ => none)

/-- Whether the event is a call of `SDL_WaitThread`. -/
def Event.isWait : Event → Bool
  | Event.SDL_WaitThread _ => true
  | _ => false

/-- Whether the event is a call of `SDL_CreateThread`, successful or not. -/
def Event.isCreateThread : Event → Bool
  | Event.SDL_CreateThread _ => true
  | _ => false

/-- The block and the capacity of the store go together: `data` is not `NULL` exactly when
`allocated > 0`. -/
def DataIffAllocated {α : Type} (b : ArrayBuffer α) : Prop :=
  b.data ≠ none ↔ 0 < b.allocated

/-- The states of the task store that `nate_ArrayBuffer_Alloc`, `nate_ArrayBuffer_Free`,
`s_add_task_sync` and `s_fetch_task_sync` produce from `ArrayBuffer0`, whatever the arguments
and whatever the allocator answers. -/
inductive StoreReachable : ArrayBuffer nate_OneTask → Prop where
  | empty : StoreReachable ArrayBuffer0
  | alloc {b b1 : ArrayBuffer nate_OneTask} (elem_size size : Nat)
      (heap : Option (Nat → nate_OneTask)) :
      StoreReachable b → (nate_ArrayBuffer_Alloc (some b) elem_size size heap).st = some b1 →
      StoreReachable b1
  | free {b b1 : ArrayBuffer nate_OneTask} :
      StoreReachable b → (nate_ArrayBuffer_Free (some b)).st = some b1 → StoreReachable b1
  | enqueue {s : ArrayBuffer nate_OneTask} {r : Ret Bool (ArrayBuffer nate_OneTask)}
      (function userdata : Nat) (heap : Option (Nat → nate_OneTask)) :
      StoreReachable s → s_add_task_sync s function userdata heap = some r →
      StoreReachable r.st
  | dequeue {s : ArrayBuffer nate_OneTask} {r : Ret nate_OneTask (ArrayBuffer nate_OneTask)} :
      StoreReachable s → s_fetch_task_sync s = some r → StoreReachable r.st

/-- The states of `s_Tasks` that the task queue itself produces from `ArrayBuffer0`: by
`s_add_task_sync` (any task, whatever the allocator answers), by `s_fetch_task_sync`, and by
the `nate_ArrayBuffer_Free` of the idle poll. The global is `static`, so nothing else writes
it; in particular `nate_ArrayBuffer_Alloc` reaches it only through `s_add_task_sync`. -/
inductive QueueReachable : ArrayBuffer nate_OneTask → Prop where
  | empty : QueueReachable ArrayBuffer0
  | enqueue {s : ArrayBuffer nate_OneTask} {r : Ret Bool (ArrayBuffer nate_OneTask)}
      (function userdata : Nat) (heap : Option (Nat → nate_OneTask)) :
      QueueReachable s → s_add_task_sync s function userdata heap = some r →
      QueueReachable r.st
  | dequeue {s : ArrayBuffer nate_OneTask} {r : Ret nate_OneTask (ArrayBuffer nate_OneTask)} :
      QueueReachable s → s_fetch_task_sync s = some r → QueueReachable r.st
  | release {s s1 : ArrayBuffer nate_OneTask} :
      QueueReachable s → (nate_ArrayBuffer_Free (some s)).st = some s1 → QueueReachable s1

/-- The shape of the states of `s_Tasks` that the task queue produces: `size` is within
`allocated` and within the block, the block has fewer than `2^60` cells (`2^64` bytes), there
is a block whenever `allocated > 0`, and `allocated` is 0, or `8 * 2 ^ j` with `j ≤ 27`, or
the value `2^64 - 2^31` that the wrapped target takes at `size = 2^30`. -/
def QueueShape (s : ArrayBuffer nate_OneTask) : Prop :=
  s.size ≤ s.allocated ∧ s.size ≤ (s.data.getD []).length ∧
    (s.data.getD []).length < 2 ^ 60 ∧ (0 < s.allocated → s.data ≠ none) ∧
    (s.allocated = 0 ∨ (∃ j, j ≤ 27 ∧ s.allocated = 8 * 2 ^ j) ∨
      s.allocated = 2 ^ 64 - 2 ^ 31)

namespace NATE_TASK_SDL3_THREAD

/-- A caller that makes two calls of `nate_Task_Update` in a row, with nothing else touching
the globals in between; `state1`, `created1` answer the SDL calls of the first call and
`state2`, `created2` those of the second. -/
def update_twice (st : Runner) (state1 : SDL_ThreadState) (created1 : Option Nat)
    (state2 : SDL_ThreadState) (created2 : Option Nat) : Ret Unit Runner :=
  let r1 := nate_Task_Update st state1 created1
  let r2 := nate_Task_Update r1.st state2 created2
  ⟨(), r2.st, r1.trace ++ r2.trace⟩

end NATE_TASK_SDL3_THREAD

/-! ## Theorems -/

/-! ### The shift loop, the allocation cases and the queue content -/

theorem s_fetch_task_sync_loop_cells (k : Nat) :
    ∀ (cells : List nate_OneTask) (i : Nat), i + k < cells.length →
      ∃ cells1, s_fetch_task_sync_loop cells i k = some cells1 ∧
        cells1.length = cells.length ∧
        ∀ j, cells1[j]? = if i ≤ j ∧ j < i + k then cells[j + 1]? else cells[j]? := by
  induction k with
  | zero =>
    intro cells i _
    refine ⟨cells, rfl, rfl, fun j => ?_⟩
    have : ¬ (i ≤ j ∧ j < i + 0) := by omega
    rw [if_neg this]
  | succ k ih =>
    intro cells i h
    have h1 : i + 1 < cells.length := by omega
    have hi : i < cells.length := by omega
    obtain ⟨c1, hc, hl, hj⟩ := ih (cells.set i cells[i + 1]) (i + 1)
      (by rw [List.length_set]; omega)
    refine ⟨c1, ?_, ?_, fun j => ?_⟩
    · simp only [s_fetch_task_sync_loop, List.getElem?_eq_getElem h1, if_pos hi]
      exact hc
    · rw [hl, List.length_set]
    · rw [hj j]
      by_cases hji : j = i
      · subst hji
        have h2 : ¬ (j + 1 ≤ j ∧ j < j + 1 + k) := by omega
        have h3 : j ≤ j ∧ j < j + (k + 1) := by omega
        rw [if_neg h2, if_pos h3, List.getElem?_set, if_pos rfl, if_pos hi,
          List.getElem?_eq_getElem h1]
      · by_cases hr : i + 1 ≤ j ∧ j < i + 1 + k
        · have h3 : i ≤ j ∧ j < i + (k + 1) := by omega
          have h4 : ¬ (i = j + 1) := by omega
          rw [if_pos hr, if_pos h3, List.getElem?_set, if_neg h4]
        · have h3 : ¬ (i ≤ j ∧ j < i + (k + 1)) := by omega
          have h4 : ¬ (i = j) := fun e => hji e.symm
          rw [if_neg hr, if_neg h3, List.getElem?_set, if_neg h4]

theorem nate_ArrayBuffer_Alloc_cases {α : Type} (b : ArrayBuffer α) (elem_size size : Nat)
    (heap : Option (Nat → α)) :
    (size ≤ b.allocated ∧ nate_ArrayBuffer_Alloc (some b) elem_size size heap = ⟨1, some b, []⟩) ∨
    (b.allocated < size ∧ heap = none ∧
      nate_ArrayBuffer_Alloc (some b) elem_size size heap =
        ⟨0, some b, [Event.realloc ((elem_size * size) % 2 ^ 64) false]⟩) ∨
    (b.allocated < size ∧ ∃ fresh, heap = some fresh ∧
      nate_ArrayBuffer_Alloc (some b) elem_size size heap =
        ⟨1, some ⟨some ((List.range ((elem_size * size) % 2 ^ 64 / elem_size)).map
            (fun i => (b.data.getD []).getD i (fresh i))), b.size, size⟩,
          [Event.realloc ((elem_size * size) % 2 ^ 64) true]⟩) := by
  by_cases h : size ≤ b.allocated
  · left
    exact ⟨h, by simp [nate_ArrayBuffer_Alloc, h]⟩
  · right
    have h0 : size ≠ 0 := by omega
    have hlt : b.allocated < size := by omega
    cases heap with
    | none =>
      left
      exact ⟨hlt, rfl, by simp [nate_ArrayBuffer_Alloc, h, h0, realloc]⟩
    | some fresh =>
      right
      exact ⟨hlt, fresh, rfl, by simp [nate_ArrayBuffer_Alloc, h, h0, realloc]⟩

theorem s_add_task_sync_store_some (s : ArrayBuffer nate_OneTask) (function userdata : Nat)
    (trace : List Event) (r : Ret Bool (ArrayBuffer nate_OneTask))
    (h : s_add_task_sync_store s function userdata trace = some r) :
    ∃ cells, s.data = some cells ∧ s.size < cells.length ∧
      r = ⟨true, ⟨some (cells.set s.size ⟨function, userdata⟩), (s.size + 1) % 2 ^ 64,
        s.allocated⟩, trace⟩ := by
  unfold s_add_task_sync_store at h
  cases hd : s.data with
  | none => rw [hd] at h; simp at h
  | some cells =>
    rw [hd] at h
    by_cases hlt : s.size < cells.length
    · simp only [if_pos hlt, Option.some.injEq] at h
      exact ⟨cells, rfl, hlt, h.symm⟩
    · simp [if_neg hlt] at h


theorem s_add_task_sync_true (s : ArrayBuffer nate_OneTask) (function userdata : Nat)
    (heap : Option (Nat → nate_OneTask)) (r : Ret Bool (ArrayBuffer nate_OneTask))
    (h : s_add_task_sync s function userdata heap = some r) (ht : r.ret = true) :
    ∃ (cells1 : List nate_OneTask) (alloc1 : Nat) (trace : List Event),
      r = ⟨true, ⟨some (cells1.set s.size ⟨function, userdata⟩), (s.size + 1) % 2 ^ 64,
        alloc1⟩, trace⟩ ∧
      s.size < cells1.length ∧ s.allocated ≤ alloc1 ∧
      (∀ j, j < (s.data.getD []).length → j < cells1.length →
        cells1[j]? = (s.data.getD [])[j]?) ∧
      (cells1.length < 2 ^ 64 ∨ cells1.length = (s.data.getD []).length) ∧
      (trace = [] ∨ ∃ bytes, trace = [Event.realloc bytes true]) := by
  unfold s_add_task_sync at h
  by_cases hg : s.size ≥ s.allocated
  · rw [if_pos hg] at h
    rcases nate_ArrayBuffer_Alloc_cases s sizeof_nate_OneTask
      (s_add_task_sync_new_size s.size) heap with ⟨_, ha⟩ | ⟨_, _, ha⟩ | ⟨hlt, fresh, _, ha⟩
    · rw [ha] at h
      simp only [Nat.one_ne_zero, if_false, Option.getD_some] at h
      obtain ⟨cells, hd, hlt, hr⟩ := s_add_task_sync_store_some _ _ _ _ _ h
      exact ⟨cells, s.allocated, [], hr, hlt, le_refl _, fun j _ _ => by rw [hd]; rfl,
        Or.inr (by rw [hd]; rfl), Or.inl rfl⟩
    · rw [ha] at h
      simp only [if_true, Option.some.injEq] at h
      rw [← h] at ht
      simp at ht
    · rw [ha] at h
      simp only [Nat.one_ne_zero, if_false, Option.getD_some] at h
      obtain ⟨cells, hd, hlt2, hr⟩ := s_add_task_sync_store_some _ _ _ _ _ h
      simp only [Option.some.injEq] at hd
      dsimp only at hr hlt2
      refine ⟨cells, s_add_task_sync_new_size s.size, _, hr, hlt2, Nat.le_of_lt hlt,
        fun j hj1 hj2 => ?_, Or.inl ?_, Or.inr ⟨_, rfl⟩⟩
      · rw [← hd] at hj2 ⊢
        rw [List.length_map, List.length_range] at hj2
        rw [List.getElem?_map, List.getElem?_range hj2, Option.map_some',
          List.getD_eq_getElem?_getD, List.getElem?_eq_getElem hj1, Option.getD_some]
      · rw [← hd, List.length_map, List.length_range]
        have : sizeof_nate_OneTask * s_add_task_sync_new_size s.size % 2 ^ 64 < 2 ^ 64 :=
          Nat.mod_lt _ (by norm_num)
        exact lt_of_le_of_lt (Nat.div_le_self _ _) this
  · rw [if_neg hg] at h
    obtain ⟨cells, hd, hlt, hr⟩ := s_add_task_sync_store_some _ _ _ _ _ h
    exact ⟨cells, s.allocated, [], hr, hlt, le_refl _, fun j _ _ => by rw [hd]; rfl,
      Or.inr (by rw [hd]; rfl), Or.inl rfl⟩


theorem s_add_task_sync_false (s : ArrayBuffer nate_OneTask) (function userdata : Nat)
    (heap : Option (Nat → nate_OneTask)) (r : Ret Bool (ArrayBuffer nate_OneTask))
    (h : s_add_task_sync s function userdata heap = some r) (hf : r.ret = false) :
    heap = none ∧ s.allocated ≤ s.size ∧ s.allocated < s_add_task_sync_new_size s.size ∧
      r = ⟨false, s, [Event.realloc
        ((sizeof_nate_OneTask * s_add_task_sync_new_size s.size) % 2 ^ 64) false]⟩ := by
  unfold s_add_task_sync at h
  by_cases hg : s.size ≥ s.allocated
  · rw [if_pos hg] at h
    rcases nate_ArrayBuffer_Alloc_cases s sizeof_nate_OneTask
      (s_add_task_sync_new_size s.size) heap with ⟨_, ha⟩ | ⟨hlt, hn, ha⟩ | ⟨_, fresh, _, ha⟩
    · rw [ha] at h
      simp only [Nat.one_ne_zero, if_false, Option.getD_some] at h
      obtain ⟨_, _, _, hr⟩ := s_add_task_sync_store_some _ _ _ _ _ h
      rw [hr] at hf
      simp at hf
    · rw [ha] at h
      simp only [if_true, Option.some.injEq, Option.getD_some] at h
      exact ⟨hn, hg, hlt, h.symm⟩
    · rw [ha] at h
      simp only [Nat.one_ne_zero, if_false, Option.getD_some] at h
      obtain ⟨_, _, _, hr⟩ := s_add_task_sync_store_some _ _ _ _ _ h
      rw [hr] at hf
      simp at hf
  · rw [if_neg hg] at h
    obtain ⟨_, _, _, hr⟩ := s_add_task_sync_store_some _ _ _ _ _ h
    rw [hr] at hf
    simp at hf

theorem s_add_task_sync_alloc_fails (s : ArrayBuffer nate_OneTask) (function userdata : Nat)
    (hg : s.allocated ≤ s.size) (hlt : s.allocated < s_add_task_sync_new_size s.size) :
    s_add_task_sync s function userdata none =
      some ⟨false, s, [Event.realloc
        ((sizeof_nate_OneTask * s_add_task_sync_new_size s.size) % 2 ^ 64) false]⟩ := by
  unfold s_add_task_sync
  have hg1 : s.size ≥ s.allocated := hg
  rw [if_pos hg1]
  rcases nate_ArrayBuffer_Alloc_cases s sizeof_nate_OneTask
    (s_add_task_sync_new_size s.size) none with ⟨hle, _⟩ | ⟨_, _, ha⟩ | ⟨_, fresh, hn, _⟩
  · omega
  · rw [ha]
    simp
  · simp at hn

theorem s_add_task_sync_holds (s : ArrayBuffer nate_OneTask) (q : List nate_OneTask)
    (function userdata : Nat) (heap : Option (Nat → nate_OneTask))
    (r : Ret Bool (ArrayBuffer nate_OneTask)) (hq : Holds s q)
    (h : s_add_task_sync s function userdata heap = some r) (ht : r.ret = true) :
    r.st.size = s.size + 1 ∧ Holds r.st (q ++ [⟨function, userdata⟩]) := by
  obtain ⟨cells1, alloc1, trace, hr, hlt, _, hold, hlen, _⟩ :=
    s_add_task_sync_true s function userdata heap r h ht
  obtain ⟨hsz, htake, hbound⟩ := hq
  have hle : s.size ≤ (s.data.getD []).length := by
    have := congrArg List.length htake
    rw [List.length_take] at this
    omega
  have hc1 : cells1.length < 2 ^ 64 := by
    rcases hlen with h1 | h1
    · exact h1
    · rw [h1]; exact hbound
  have hmod : (s.size + 1) % 2 ^ 64 = s.size + 1 := Nat.mod_eq_of_lt (by omega)
  subst hr
  dsimp only
  rw [hmod]
  refine ⟨rfl, by rw [List.length_append, hsz]; rfl, ?_, ?_⟩
  · rw [Option.getD_some, ← htake]
    apply List.ext_getElem?
    intro j
    rw [List.getElem?_take, List.getElem?_append, List.length_take, List.getElem?_set,
      Nat.min_eq_left hle]
    by_cases hj : j < s.size
    · have h1 : j < s.size + 1 := by omega
      have h2 : ¬ (s.size = j) := by omega
      rw [if_pos h1, if_pos hj, if_neg h2, List.getElem?_take, if_pos hj]
      exact hold j (by omega) (by omega)
    · by_cases hj2 : j = s.size
      · subst hj2
        simp [hlt]
      · have h1 : ¬ (j < s.size + 1) := by omega
        rw [if_neg h1, if_neg hj]
        have : 1 ≤ j - s.size := by omega
        rw [List.getElem?_eq_none]
        simpa using this
  · rw [Option.getD_some, List.length_set]
    exact hc1

theorem s_fetch_task_sync_holds (s : ArrayBuffer nate_OneTask) (x : nate_OneTask)
    (q : List nate_OneTask) (hq : Holds s (x :: q)) :
    ∃ st1, s_fetch_task_sync s = some ⟨x, st1, []⟩ ∧ st1.size = s.size - 1 ∧
      st1.allocated = s.allocated ∧ Holds st1 q := by
  obtain ⟨hsz, htake, hbound⟩ := hq
  rw [List.length_cons] at hsz
  cases hd : s.data with
  | none => rw [hd] at htake; simp at htake
  | some cells =>
    rw [hd, Option.getD_some] at htake hbound
    have hle : s.size ≤ cells.length := by
      have := congrArg List.length htake
      rw [List.length_take, List.length_cons] at this
      omega
    have hget : ∀ j, j < s.size → cells[j]? = (x :: q)[j]? := by
      intro j hj
      rw [← htake, List.getElem?_take, if_pos hj]
    have h0 : cells[0]? = some x := by rw [hget 0 (by omega)]; simp
    obtain ⟨c1, hc, hl, hj⟩ := s_fetch_task_sync_loop_cells (s.size - 1) cells 0 (by omega)
    refine ⟨⟨some c1, s.size - 1, s.allocated⟩, ?_, rfl, rfl, ?_, ?_, ?_⟩
    · have hpos : s.size > 0 := by omega
      simp only [s_fetch_task_sync, if_pos hpos, hd, h0, hc]
    · dsimp only; omega
    · dsimp only
      rw [Option.getD_some]
      apply List.ext_getElem?
      intro j
      rw [List.getElem?_take, hj j]
      by_cases hjs : j < s.size - 1
      · have h1 : 0 ≤ j ∧ j < 0 + (s.size - 1) := by omega
        rw [if_pos hjs, if_pos h1, hget (j + 1) (by omega), List.getElem?_cons_succ]
      · rw [if_neg hjs, List.getElem?_eq_none (by omega)]
    · dsimp only
      rw [Option.getD_some, hl]
      exact hbound

theorem s_fetch_task_sync_empty (s : ArrayBuffer nate_OneTask) (h : s.size = 0) :
    s_fetch_task_sync s = some ⟨⟨0, 0⟩, s, []⟩ := by
  simp [s_fetch_task_sync, h]


/-! ### First in, first out (C1) -/

theorem add_each_holds (items : List (nate_OneTask × Option (Nat → nate_OneTask))) :
    ∀ (s : ArrayBuffer nate_OneTask) (q : List nate_OneTask)
      (r : Ret (List Bool) (ArrayBuffer nate_OneTask)),
      Holds s q → NATE_TASK_NO_THREAD.add_each s items = some r → (∀ b ∈ r.ret, b = true) →
      Holds r.st (q ++ items.map Prod.fst) := by
  induction items with
  | nil =>
    intro s q r hq h _
    simp only [NATE_TASK_NO_THREAD.add_each, Option.some.injEq] at h
    subst h
    simpa using hq
  | cons x rest ih =>
    intro s q r hq h hall
    obtain ⟨task, heap⟩ := x
    simp only [NATE_TASK_NO_THREAD.add_each, NATE_TASK_NO_THREAD.nate_Task_Add] at h
    cases h1 : s_add_task_sync s task.function task.userdata heap with
    | none => rw [h1] at h; simp at h
    | some r1 =>
      rw [h1] at h
      dsimp only at h
      cases h2 : NATE_TASK_NO_THREAD.add_each r1.st rest with
      | none => rw [h2] at h; simp at h
      | some rs =>
        rw [h2] at h
        simp only [Option.some.injEq] at h
        subst h
        have ht : r1.ret = true := hall r1.ret (List.mem_cons_self _ _)
        have hq1 := (s_add_task_sync_holds s q _ _ heap r1 hq h1 ht).2
        have := ih r1.st _ rs hq1 h2 (fun b hb => hall b (List.mem_cons_of_mem _ hb))
        simpa [List.append_assoc] using this

theorem update_times_holds (q : List nate_OneTask) :
    ∀ (s : ArrayBuffer nate_OneTask), Holds s q → (∀ t ∈ q, t.function ≠ 0) →
      ∃ st1, NATE_TASK_NO_THREAD.update_times q.length s =
          some ⟨(), st1, q.map (fun t => Event.call t.function t.userdata)⟩ ∧
        Holds st1 [] ∧ st1.allocated = s.allocated := by
  induction q with
  | nil =>
    intro s hq _
    exact ⟨s, rfl, hq, rfl⟩
  | cons x q ih =>
    intro s hq hnn
    obtain ⟨st1, hf, _, hal, hq1⟩ := s_fetch_task_sync_holds s x q hq
    obtain ⟨st2, hu, hq2, hal2⟩ := ih st1 hq1 (fun t ht => hnn t (List.mem_cons_of_mem _ ht))
    have hx : x.function ≠ 0 := hnn x (List.mem_cons_self _ _)
    refine ⟨st2, ?_, hq2, by rw [hal2, hal]⟩
    simp only [List.length_cons, NATE_TASK_NO_THREAD.update_times,
      NATE_TASK_NO_THREAD.nate_Task_Update, hf, if_pos hx, hu,
      List.nil_append, List.map_cons, List.singleton_append]

/-- C1. Synchronous build, FIFO: when the tasks of `items`, all with a function that is not
`NULL`, are added to the empty `s_Tasks` one after the other and every `nate_Task_Add` returns
true, then `items.length` calls of `nate_Task_Update` call exactly the functions of the
tasks, each once, each with its own user data, in the order of the adds, and `s_Tasks.size`
is 0 afterwards. -/
theorem nothread_fifo (items : List (nate_OneTask × Option (Nat → nate_OneTask)))
    (r : Ret (List Bool) (ArrayBuffer nate_OneTask))
    (hnonnull : ∀ x ∈ items, x.1.function ≠ 0)
    (hadd : NATE_TASK_NO_THREAD.add_each ArrayBuffer0 items = some r)
    (hok : ∀ b ∈ r.ret, b = true) :
    ∃ st1, NATE_TASK_NO_THREAD.update_times items.length r.st =
        some ⟨(), st1, items.map (fun x => Event.call x.1.function x.1.userdata)⟩ ∧
      st1.size = 0 := by
  have h0 : Holds (ArrayBuffer0 : ArrayBuffer nate_OneTask) [] :=
    ⟨rfl, rfl, by simp [ArrayBuffer0]⟩
  have hq := add_each_holds items ArrayBuffer0 [] r h0 hadd hok
  rw [List.nil_append] at hq
  obtain ⟨st1, hu, hq1, _⟩ := update_times_holds (items.map Prod.fst) r.st hq
    (by
      intro t ht
      obtain ⟨x, hx, rfl⟩ := List.mem_map.mp ht
      exact hnonnull x hx)
  rw [List.length_map, List.map_map] at hu
  exact ⟨st1, hu, hq1.1⟩

theorem nothread_fifo_witness :
    ∃ st1, NATE_TASK_NO_THREAD.update_times 3
        ⟨some [⟨1, 10⟩, ⟨2, 20⟩, ⟨3, 30⟩, ⟨0, 0⟩, ⟨0, 0⟩, ⟨0, 0⟩, ⟨0, 0⟩, ⟨0, 0⟩], 3, 8⟩ =
        some ⟨(), st1, [Event.call 1 10, Event.call 2 20, Event.call 3 30]⟩ ∧
      st1.size = 0 :=
  nothread_fifo
    [(⟨1, 10⟩, some (fun _ => ⟨0, 0⟩)), (⟨2, 20⟩, none), (⟨3, 30⟩, none)]
    ⟨[true, true, true],
      ⟨some [⟨1, 10⟩, ⟨2, 20⟩, ⟨3, 30⟩, ⟨0, 0⟩, ⟨0, 0⟩, ⟨0, 0⟩, ⟨0, 0⟩, ⟨0, 0⟩], 3, 8⟩,
      [Event.realloc 128 true]⟩
    (by decide) (by decide) (by decide)


/-! ### Enqueue and dequeue contracts (C2, C3, C4) -/

/-- C2. Enqueue failure is atomic. For every queue state: whenever a call of
`s_add_task_sync` has made a `realloc` call that failed, it has returned false and `s_Tasks`
(block, size, allocated) is exactly what it was; and whenever the call has to grow
(`size >= allocated`, target above `allocated`) and the allocator answers `NULL`, the call
does return false, with `s_Tasks` unchanged and that one failed `realloc` as its only call. -/
theorem add_failure_atomic (s : ArrayBuffer nate_OneTask) (function userdata : Nat) :
    (∀ heap r, s_add_task_sync s function userdata heap = some r →
      (∃ bytes, Event.realloc bytes false ∈ r.trace) → r.ret = false ∧ r.st = s) ∧
    (s.allocated ≤ s.size → s.allocated < s_add_task_sync_new_size s.size →
      s_add_task_sync s function userdata none =
        some ⟨false, s, [Event.realloc
          ((sizeof_nate_OneTask * s_add_task_sync_new_size s.size) % 2 ^ 64) false]⟩) := by
  refine ⟨fun heap r h hfail => ?_, s_add_task_sync_alloc_fails s function userdata⟩
  cases hret : r.ret with
  | false =>
    obtain ⟨_, _, _, hr⟩ := s_add_task_sync_false s function userdata heap r h hret
    rw [hr]
    exact ⟨rfl, rfl⟩
  | true =>
    obtain ⟨_, _, trace, hr, _, _, _, _, htr⟩ :=
      s_add_task_sync_true s function userdata heap r h hret
    obtain ⟨bytes, hmem⟩ := hfail
    rw [hr] at hmem
    rcases htr with htr | ⟨b, htr⟩
    · rw [htr] at hmem
      simp at hmem
    · rw [htr] at hmem
      simp at hmem

theorem add_failure_atomic_witness :
    ((⟨false, ⟨some [⟨1, 10⟩, ⟨2, 20⟩], 2, 2⟩, [Event.realloc 64 false]⟩ :
          Ret Bool (ArrayBuffer nate_OneTask)).ret = false ∧
        (⟨false, ⟨some [⟨1, 10⟩, ⟨2, 20⟩], 2, 2⟩, [Event.realloc 64 false]⟩ :
          Ret Bool (ArrayBuffer nate_OneTask)).st = ⟨some [⟨1, 10⟩, ⟨2, 20⟩], 2, 2⟩) ∧
      s_add_task_sync ⟨some [⟨1, 10⟩, ⟨2, 20⟩], 2, 2⟩ 3 30 none =
        some ⟨false, ⟨some [⟨1, 10⟩, ⟨2, 20⟩], 2, 2⟩, [Event.realloc 64 false]⟩ :=
  ⟨(add_failure_atomic ⟨some [⟨1, 10⟩, ⟨2, 20⟩], 2, 2⟩ 3 30).1 none
      ⟨false, ⟨some [⟨1, 10⟩, ⟨2, 20⟩], 2, 2⟩, [Event.realloc 64 false]⟩ (by decide)
      ⟨64, by decide⟩,
    (add_failure_atomic ⟨some [⟨1, 10⟩, ⟨2, 20⟩], 2, 2⟩ 3 30).2 (by decide) (by decide)⟩

/-- C3. Dequeue on a queue that is not empty: when `s_Tasks` holds the items `x :: q`
(so `size = q.length + 1 > 0`), `s_fetch_task_sync` returns `x`, the item at index 0, and
afterwards `size` is one less, `s_Tasks` holds `q` (the former items 1 .. n-1 at the positions
0 .. n-2, in the same order) and `allocated` is unchanged. -/
theorem fetch_removes_head (s : ArrayBuffer nate_OneTask) (x : nate_OneTask)
    (q : List nate_OneTask) (hq : Holds s (x :: q)) :
    ∃ st1, s_fetch_task_sync s = some ⟨x, st1, []⟩ ∧ st1.size = s.size - 1 ∧
      st1.size = q.length ∧ Holds st1 q ∧ st1.allocated = s.allocated := by
  obtain ⟨st1, hf, hsz, hal, hq1⟩ := s_fetch_task_sync_holds s x q hq
  exact ⟨st1, hf, hsz, hq1.1, hq1, hal⟩

theorem fetch_removes_head_witness :
    ∃ st1, s_fetch_task_sync ⟨some [⟨1, 10⟩, ⟨2, 20⟩, ⟨3, 30⟩, ⟨7, 7⟩], 3, 4⟩ =
        some ⟨⟨1, 10⟩, st1, []⟩ ∧ st1.size = 3 - 1 ∧
      st1.size = [(⟨2, 20⟩ : nate_OneTask), ⟨3, 30⟩].length ∧
      Holds st1 [⟨2, 20⟩, ⟨3, 30⟩] ∧ st1.allocated = 4 :=
  fetch_removes_head ⟨some [⟨1, 10⟩, ⟨2, 20⟩, ⟨3, 30⟩, ⟨7, 7⟩], 3, 4⟩ ⟨1, 10⟩
    [⟨2, 20⟩, ⟨3, 30⟩] ⟨rfl, rfl, by simp⟩

/-- C4. A successful enqueue appends at the end: when `s_Tasks` holds the items `q`
(so `size = q.length`) and `s_add_task_sync function userdata` returns true, then afterwards
`size = q.length + 1`, the cell at index `q.length` is the pair `(function, userdata)`, the
cells at the indices below still are the items of `q`, and `s_Tasks` holds
`q ++ [(function, userdata)]`. -/
theorem add_appends_at_end (s : ArrayBuffer nate_OneTask) (q : List nate_OneTask)
    (function userdata : Nat) (heap : Option (Nat → nate_OneTask))
    (r : Ret Bool (ArrayBuffer nate_OneTask)) (hq : Holds s q)
    (h : s_add_task_sync s function userdata heap = some r) (ht : r.ret = true) :
    r.st.size = q.length + 1 ∧
      (r.st.data.getD [])[q.length]? = some ⟨function, userdata⟩ ∧
      (∀ i, i < q.length → (r.st.data.getD [])[i]? = q[i]?) ∧
      Holds r.st (q ++ [⟨function, userdata⟩]) := by
  obtain ⟨hsz, hq1⟩ := s_add_task_sync_holds s q function userdata heap r hq h ht
  have hget : ∀ i, i < q.length + 1 →
      (r.st.data.getD [])[i]? = (q ++ [⟨function, userdata⟩])[i]? := by
    intro i hi
    rw [← hq1.2.1, List.getElem?_take, if_pos (by rw [hsz, hq.1]; exact hi)]
  refine ⟨by rw [hsz, hq.1], ?_, fun i hi => ?_, hq1⟩
  · rw [hget _ (by omega)]
    simp
  · rw [hget i (by omega), List.getElem?_append, if_pos hi]

theorem add_appends_at_end_witness :
    (2 : Nat) = [(⟨1, 10⟩ : nate_OneTask)].length + 1 ∧
      [(⟨1, 10⟩ : nate_OneTask), ⟨2, 20⟩][[(⟨1, 10⟩ : nate_OneTask)].length]? = some ⟨2, 20⟩ ∧
      (∀ i, i < [(⟨1, 10⟩ : nate_OneTask)].length →
        [(⟨1, 10⟩ : nate_OneTask), ⟨2, 20⟩][i]? = [(⟨1, 10⟩ : nate_OneTask)][i]?) ∧
      Holds ⟨some [⟨1, 10⟩, ⟨2, 20⟩], 2, 2⟩ ([⟨1, 10⟩] ++ [⟨2, 20⟩]) :=
  add_appends_at_end ⟨some [⟨1, 10⟩, ⟨9, 9⟩], 1, 2⟩ [⟨1, 10⟩] 2 20 none
    ⟨true, ⟨some [⟨1, 10⟩, ⟨2, 20⟩], 2, 2⟩, []⟩ ⟨rfl, rfl, by simp⟩ (by decide) rfl

/-! ### The `NULL` function as the mark of the empty queue (C5) -/

theorem reachable_nonnull_holds (s : ArrayBuffer nate_OneTask)
    (h : Reachable (fun function => function ≠ 0) s) :
    ∃ q, Holds s q ∧ ∀ t ∈ q, t.function ≠ 0 := by
  induction h with
  | empty => exact ⟨[], ⟨rfl, rfl, by simp [ArrayBuffer0]⟩, by simp⟩
  | @enqueue s r function userdata heap _ hP hadd ih =>
    obtain ⟨q, hq, hnn⟩ := ih
    cases hret : r.ret with
    | false =>
      obtain ⟨_, _, _, hr⟩ := s_add_task_sync_false s function userdata heap r hadd hret
      rw [hr]
      exact ⟨q, hq, hnn⟩
    | true =>
      refine ⟨q ++ [⟨function, userdata⟩],
        (s_add_task_sync_holds s q function userdata heap r hq hadd hret).2, ?_⟩
      intro t ht
      rcases List.mem_append.mp ht with ht | ht
      · exact hnn t ht
      · rw [List.mem_singleton.mp ht]
        exact hP
  | @dequeue s r _ hfetch ih =>
    obtain ⟨q, hq, hnn⟩ := ih
    cases q with
    | nil =>
      rw [s_fetch_task_sync_empty s hq.1, Option.some.injEq] at hfetch
      rw [← hfetch]
      exact ⟨[], hq, hnn⟩
    | cons x q =>
      obtain ⟨st1, hf, _, _, hq1⟩ := s_fetch_task_sync_holds s x q hq
      rw [hf, Option.some.injEq] at hfetch
      rw [← hfetch]
      exact ⟨q, hq1, fun t ht => hnn t (List.mem_cons_of_mem _ ht)⟩

/-- C5, as amended. In every state of `s_Tasks` that enqueue calls with a function that is
not `NULL` and dequeue calls produce from the empty queue, `s_fetch_task_sync` returns, and
the function of the returned item is `NULL` if and only if `size` was 0 at the call;
no cell among the first `size` ones has a `NULL` function. -/
theorem fetch_null_iff_empty (s : ArrayBuffer nate_OneTask)
    (h : Reachable (fun function => function ≠ 0) s) :
    (∃ r, s_fetch_task_sync s = some r ∧ (r.ret.function = 0 ↔ s.size = 0)) ∧
      ∀ t ∈ (s.data.getD []).take s.size, t.function ≠ 0 := by
  obtain ⟨q, hq, hnn⟩ := reachable_nonnull_holds s h
  refine ⟨?_, by rw [hq.2.1]; exact hnn⟩
  cases q with
  | nil =>
    exact ⟨_, s_fetch_task_sync_empty s hq.1, by simp [hq.1]⟩
  | cons x q =>
    obtain ⟨st1, hf, _, _, _⟩ := s_fetch_task_sync_holds s x q hq
    refine ⟨_, hf, ?_⟩
    have hx : x.function ≠ 0 := hnn x (List.mem_cons_self _ _)
    have hs : s.size ≠ 0 := by rw [hq.1]; simp
    simp [hx, hs]

theorem fetch_null_iff_empty_witness :
    (∃ r, s_fetch_task_sync
        ⟨some [⟨4, 5⟩, ⟨0, 0⟩, ⟨0, 0⟩, ⟨0, 0⟩, ⟨0, 0⟩, ⟨0, 0⟩, ⟨0, 0⟩, ⟨0, 0⟩], 1, 8⟩ = some r ∧
        (r.ret.function = 0 ↔ (1 : Nat) = 0)) ∧
      ∀ t ∈ ([⟨4, 5⟩, ⟨0, 0⟩, ⟨0, 0⟩, ⟨0, 0⟩, ⟨0, 0⟩, ⟨0, 0⟩, ⟨0, 0⟩, ⟨0, 0⟩] :
        List nate_OneTask).take 1, t.function ≠ 0 :=
  fetch_null_iff_empty
    ⟨some [⟨4, 5⟩, ⟨0, 0⟩, ⟨0, 0⟩, ⟨0, 0⟩, ⟨0, 0⟩, ⟨0, 0⟩, ⟨0, 0⟩, ⟨0, 0⟩], 1, 8⟩
    (Reachable.enqueue
      (r := ⟨true, ⟨some [⟨4, 5⟩, ⟨0, 0⟩, ⟨0, 0⟩, ⟨0, 0⟩, ⟨0, 0⟩, ⟨0, 0⟩, ⟨0, 0⟩, ⟨0, 0⟩], 1, 8⟩,
        [Event.realloc 128 true]⟩)
      4 5 (some (fun _ => ⟨0, 0⟩)) Reachable.empty (by decide) (by decide))

/-- C5, counterexample. One enqueue call with a `NULL` function on the empty queue returns
true and stores the item; the state it leaves is reachable by enqueue and dequeue calls, its
`size` is 1 (the queue is not empty), and `s_fetch_task_sync` returns from it the item
`(0, 5)`, whose function is `NULL`. -/
theorem fetch_null_from_nonempty :
    Reachable (fun _ => True)
        ⟨some [⟨0, 5⟩, ⟨0, 0⟩, ⟨0, 0⟩, ⟨0, 0⟩, ⟨0, 0⟩, ⟨0, 0⟩, ⟨0, 0⟩, ⟨0, 0⟩], 1, 8⟩ ∧
      (∃ r, s_fetch_task_sync
          ⟨some [⟨0, 5⟩, ⟨0, 0⟩, ⟨0, 0⟩, ⟨0, 0⟩, ⟨0, 0⟩, ⟨0, 0⟩, ⟨0, 0⟩, ⟨0, 0⟩], 1, 8⟩ = some r ∧
        r.ret.function = 0) ∧
      (⟨some [⟨0, 5⟩, ⟨0, 0⟩, ⟨0, 0⟩, ⟨0, 0⟩, ⟨0, 0⟩, ⟨0, 0⟩, ⟨0, 0⟩, ⟨0, 0⟩], 1, 8⟩ :
        ArrayBuffer nate_OneTask).size ≠ 0 :=
  ⟨Reachable.enqueue
      (r := ⟨true, ⟨some [⟨0, 5⟩, ⟨0, 0⟩, ⟨0, 0⟩, ⟨0, 0⟩, ⟨0, 0⟩, ⟨0, 0⟩, ⟨0, 0⟩, ⟨0, 0⟩], 1, 8⟩,
        [Event.realloc 128 true]⟩)
      0 5 (some (fun _ => ⟨0, 0⟩)) Reachable.empty trivial (by decide),
    ⟨⟨⟨0, 5⟩, ⟨some [⟨0, 5⟩, ⟨0, 0⟩, ⟨0, 0⟩, ⟨0, 0⟩, ⟨0, 0⟩, ⟨0, 0⟩, ⟨0, 0⟩, ⟨0, 0⟩], 0, 8⟩, []⟩,
      by decide, rfl⟩,
    by decide⟩


/-! ### `nate_ArrayBuffer_Alloc` and `nate_ArrayBuffer_Free` (C6, C7, C8) -/

theorem nate_ArrayBuffer_Alloc_zero {α : Type} (b : ArrayBuffer α) (elem_size : Nat)
    (heap : Option (Nat → α)) :
    nate_ArrayBuffer_Alloc (some b) elem_size 0 heap = ⟨1, some b, []⟩ := by
  simp [nate_ArrayBuffer_Alloc]

/-- C6, the code at the failing input. On a store with a block of 3 cells (`allocated = 3`,
`size = 2`), `nate_ArrayBuffer_Alloc(buffer, 4, 0)` returns 1 through the first test
(`allocated >= size`), calls neither `free` nor `realloc`, and leaves the store as it was:
the block is still there and `allocated` is still 3. -/
theorem alloc_zero_keeps_block :
    nate_ArrayBuffer_Alloc (some (⟨some [7, 8, 9], 2, 3⟩ : ArrayBuffer Nat)) 4 0 none =
      ⟨1, some ⟨some [7, 8, 9], 2, 3⟩, []⟩ :=
  nate_ArrayBuffer_Alloc_zero _ _ _

/-- C7. `nate_ArrayBuffer_Alloc` on a store that is not `NULL`, with a target `size`:
(a) when `allocated >= size` it returns 1, makes no call to the allocator and leaves the store
as it was; (b) when `allocated < size` and `realloc` succeeds it returns 1 with
`allocated = size`, `size` of the store unchanged and `data` the new block; (c) when
`allocated < size` and `realloc` fails it returns 0 and leaves the store as it was; and the
call returns 0 only when `allocated < size` and the allocator answers `NULL`. Parts (b) and
(c) are about a `realloc` request of at least one byte, `elem_size * size` not 0 modulo
`2^64` (so `size >= 1`); what `realloc` does with a request of 0 bytes is left to the C
library and is not stated here. -/
theorem alloc_positive_target {α : Type} (b : ArrayBuffer α) (elem_size size : Nat)
    (heap : Option (Nat → α)) :
    (size ≤ b.allocated →
      nate_ArrayBuffer_Alloc (some b) elem_size size heap = ⟨1, some b, []⟩) ∧
    (b.allocated < size → (elem_size * size) % 2 ^ 64 ≠ 0 → heap ≠ none →
      ∃ new_mem, realloc b.data elem_size ((elem_size * size) % 2 ^ 64) heap = some new_mem ∧
        nate_ArrayBuffer_Alloc (some b) elem_size size heap =
          ⟨1, some ⟨some new_mem, b.size, size⟩,
            [Event.realloc ((elem_size * size) % 2 ^ 64) true]⟩) ∧
    (b.allocated < size → (elem_size * size) % 2 ^ 64 ≠ 0 → heap = none →
      nate_ArrayBuffer_Alloc (some b) elem_size size heap =
        ⟨0, some b, [Event.realloc ((elem_size * size) % 2 ^ 64) false]⟩) ∧
    ((nate_ArrayBuffer_Alloc (some b) elem_size size heap).ret = 0 →
      b.allocated < size ∧ heap = none) := by
  rcases nate_ArrayBuffer_Alloc_cases b elem_size size heap with
    ⟨hle, ha⟩ | ⟨hlt, hn, ha⟩ | ⟨hlt, fresh, hs, ha⟩
  · refine ⟨fun _ => ha, fun h => ?_, fun h => ?_, fun h => ?_⟩
    · omega
    · omega
    · rw [ha] at h
      simp at h
  · refine ⟨fun h => ?_, fun _ _ h => absurd hn h, fun _ _ _ => ha, fun _ => ⟨hlt, hn⟩⟩
    omega
  · refine ⟨fun h => ?_, fun _ _ _ => ⟨_, ?_, ha⟩, fun _ _ h => ?_, fun h => ?_⟩
    · omega
    · rw [hs]
      rfl
    · rw [hs] at h
      simp at h
    · rw [ha] at h
      simp at h

theorem alloc_positive_target_witness :
    nate_ArrayBuffer_Alloc (some (⟨some [7, 8, 9], 1, 3⟩ : ArrayBuffer Nat)) 4 2 none =
        ⟨1, some ⟨some [7, 8, 9], 1, 3⟩, []⟩ ∧
    (∃ new_mem, realloc (some [7, 8, 9]) 4 ((4 * 5) % 2 ^ 64) (some (fun _ => 0)) =
          some new_mem ∧
        nate_ArrayBuffer_Alloc (some (⟨some [7, 8, 9], 1, 3⟩ : ArrayBuffer Nat)) 4 5
            (some (fun _ => 0)) =
          ⟨1, some ⟨some new_mem, 1, 5⟩, [Event.realloc ((4 * 5) % 2 ^ 64) true]⟩) ∧
    nate_ArrayBuffer_Alloc (some (⟨some [7, 8, 9], 1, 3⟩ : ArrayBuffer Nat)) 4 5 none =
        ⟨0, some ⟨some [7, 8, 9], 1, 3⟩, [Event.realloc ((4 * 5) % 2 ^ 64) false]⟩ ∧
    ((3 : Nat) < 5 ∧ (none : Option (Nat → Nat)) = none) :=
  ⟨(alloc_positive_target (⟨some [7, 8, 9], 1, 3⟩ : ArrayBuffer Nat) 4 2 none).1 (by decide),
    (alloc_positive_target (⟨some [7, 8, 9], 1, 3⟩ : ArrayBuffer Nat) 4 5
      (some (fun _ => 0))).2.1 (by decide) (by decide) (by simp),
    (alloc_positive_target (⟨some [7, 8, 9], 1, 3⟩ : ArrayBuffer Nat) 4 5 none).2.2.1
      (by decide) (by decide) rfl,
    (alloc_positive_target (⟨some [7, 8, 9], 1, 3⟩ : ArrayBuffer Nat) 4 5 none).2.2.2
      (by decide)⟩

theorem nate_ArrayBuffer_Free_data {α : Type} (b : ArrayBuffer α) (cells : List α)
    (h : b.data = some cells) :
    nate_ArrayBuffer_Free (some b) = ⟨(), some ⟨none, 0, 0⟩, [Event.free]⟩ := by
  simp [nate_ArrayBuffer_Free, h]

theorem nate_ArrayBuffer_Free_null {α : Type} (b : ArrayBuffer α) (h : b.data = none) :
    nate_ArrayBuffer_Free (some b) = ⟨(), some b, []⟩ := by
  simp [nate_ArrayBuffer_Free, h]

/-- C8, as amended. After `nate_ArrayBuffer_Free` the `data` of the store is `NULL`. When
`data` was not `NULL` before, or when the store satisfied the store invariant, the store is
all zero afterwards (`data = NULL`, `allocated = 0`, `size = 0`); when `data` was `NULL` the
call changes nothing. In every case a second call changes nothing and calls nothing. -/
theorem free_resets_and_idempotent {α : Type} (b : ArrayBuffer α) :
    (∃ b1, (nate_ArrayBuffer_Free (some b)).st = some b1 ∧ b1.data = none ∧
      nate_ArrayBuffer_Free (some b1) = ⟨(), some b1, []⟩) ∧
    (b.data ≠ none → (nate_ArrayBuffer_Free (some b)).st = some ⟨none, 0, 0⟩) ∧
    (StoreInvariant b → (nate_ArrayBuffer_Free (some b)).st = some ⟨none, 0, 0⟩) ∧
    (b.data = none → nate_ArrayBuffer_Free (some b) = ⟨(), some b, []⟩) := by
  cases hd : b.data with
  | none =>
    refine ⟨⟨b, ?_, hd, nate_ArrayBuffer_Free_null b hd⟩, fun h => absurd rfl h, fun hinv => ?_,
      fun _ => nate_ArrayBuffer_Free_null b hd⟩
    · rw [nate_ArrayBuffer_Free_null b hd]
    · rw [nate_ArrayBuffer_Free_null b hd]
      obtain ⟨h1, h2⟩ := hinv
      have ha : b.allocated = 0 := by
        by_contra hne
        exact h2 (Nat.pos_of_ne_zero hne) hd
      have hs : b.size = 0 := by omega
      cases b
      simp_all
  | some cells =>
    refine ⟨⟨⟨none, 0, 0⟩, ?_, rfl, nate_ArrayBuffer_Free_null _ rfl⟩, fun _ => ?_, fun _ => ?_,
      fun h => by simp at h⟩
    · rw [nate_ArrayBuffer_Free_data b cells hd]
    · rw [nate_ArrayBuffer_Free_data b cells hd]
    · rw [nate_ArrayBuffer_Free_data b cells hd]

theorem free_resets_and_idempotent_witness :
    (nate_ArrayBuffer_Free (some (⟨some [7, 8, 9], 2, 3⟩ : ArrayBuffer Nat))).st =
        some ⟨none, 0, 0⟩ ∧
      (nate_ArrayBuffer_Free (some (⟨some [7, 8, 9], 2, 3⟩ : ArrayBuffer Nat))).st =
        some ⟨none, 0, 0⟩ ∧
      nate_ArrayBuffer_Free (some (⟨none, 5, 3⟩ : ArrayBuffer Nat)) =
        ⟨(), some ⟨none, 5, 3⟩, []⟩ :=
  ⟨(free_resets_and_idempotent (⟨some [7, 8, 9], 2, 3⟩ : ArrayBuffer Nat)).2.1 (by decide),
    (free_resets_and_idempotent (⟨some [7, 8, 9], 2, 3⟩ : ArrayBuffer Nat)).2.2.1
      ⟨by decide, fun _ => by decide⟩,
    (free_resets_and_idempotent (⟨none, 5, 3⟩ : ArrayBuffer Nat)).2.2.2 rfl⟩

/-- C8, counterexample. On the store value with `data = NULL`, `size = 5`, `allocated = 3`
`nate_ArrayBuffer_Free` returns at `if (!buffer->data) return;`: afterwards `allocated` is
still 3 and `size` is still 5, not 0. -/
theorem free_keeps_counters_of_null_data :
    nate_ArrayBuffer_Free (some (⟨none, 5, 3⟩ : ArrayBuffer Nat)) =
        ⟨(), some ⟨none, 5, 3⟩, []⟩ ∧
      (nate_ArrayBuffer_Free (some (⟨none, 5, 3⟩ : ArrayBuffer Nat))).st ≠
        some ⟨none, 0, 0⟩ := by
  decide


/-! ### Growth by doubling (C9) -/

theorem s_add_task_sync_new_size_small (n : Nat) (h : n < 2 ^ 30) :
    s_add_task_sync_new_size n = if n = 0 then 8 else 2 * n := by
  unfold s_add_task_sync_new_size int_of_size_t int_wrap size_t_of_int
  simp only []
  split <;> split <;> omega

theorem smallestDoubling_succ (cap n : Nat) (h : SmallestDoubling cap n) (hlt : n < cap) :
    SmallestDoubling cap (n + 1) :=
  ⟨h.1, hlt, fun j hj => h.2.2 j (by omega)⟩

theorem smallestDoubling_double (n : Nat) (h : SmallestDoubling n n) :
    SmallestDoubling (2 * n) (n + 1) := by
  obtain ⟨⟨j0, hj0⟩, _, _⟩ := h
  have hpos : 0 < 2 ^ j0 := Nat.two_pow_pos _
  refine ⟨⟨j0 + 1, by rw [pow_succ]; omega⟩, by omega, fun j hj => ?_⟩
  have hlt : j0 < j := by
    by_contra hcon
    have : 2 ^ j ≤ 2 ^ j0 := Nat.pow_le_pow_right (by norm_num) (by omega)
    omega
  have : 2 ^ (j0 + 1) ≤ 2 ^ j := Nat.pow_le_pow_right (by norm_num) hlt
  rw [pow_succ] at this
  omega

theorem smallestDoubling_eight_one : SmallestDoubling 8 1 := by
  refine ⟨⟨0, by norm_num⟩, by norm_num, fun j _ => ?_⟩
  have : 0 < 2 ^ j := Nat.two_pow_pos _
  omega

theorem s_add_task_sync_store_eq (s : ArrayBuffer nate_OneTask) (cells : List nate_OneTask)
    (function userdata : Nat) (trace : List Event) (hd : s.data = some cells)
    (hlt : s.size < cells.length) :
    s_add_task_sync_store s function userdata trace =
      some ⟨true, ⟨some (cells.set s.size ⟨function, userdata⟩), (s.size + 1) % 2 ^ 64,
        s.allocated⟩, trace⟩ := by
  simp only [s_add_task_sync_store, hd, if_pos hlt]

theorem s_add_task_sync_grows (s : ArrayBuffer nate_OneTask) (function userdata : Nat)
    (fresh : Nat → nate_OneTask)
    (hlen : (s.data.getD []).length = s.allocated) (hle : s.size ≤ s.allocated)
    (hcap : s.allocated = 0 ∨ (1 ≤ s.size ∧ SmallestDoubling s.allocated s.size))
    (hsmall : s.size < 2 ^ 30) :
    ∃ r, s_add_task_sync s function userdata (some fresh) = some r ∧ r.ret = true ∧
      r.st.size = s.size + 1 ∧ (r.st.data.getD []).length = r.st.allocated ∧
      r.st.size ≤ r.st.allocated ∧ SmallestDoubling r.st.allocated r.st.size := by
  have hmod : (s.size + 1) % 2 ^ 64 = s.size + 1 := Nat.mod_eq_of_lt (by omega)
  by_cases hg : s.size ≥ s.allocated
  · have heq : s.allocated = s.size := by omega
    have hns := s_add_task_sync_new_size_small s.size hsmall
    have hlt : s.allocated < s_add_task_sync_new_size s.size := by
      rw [hns]; split <;> omega
    have hbytes : sizeof_nate_OneTask * s_add_task_sync_new_size s.size % 2 ^ 64 /
        sizeof_nate_OneTask = s_add_task_sync_new_size s.size := by
      rw [hns]; unfold sizeof_nate_OneTask; split <;> omega
    have hsd : SmallestDoubling (s_add_task_sync_new_size s.size) (s.size + 1) := by
      rw [hns]
      by_cases h0 : s.size = 0
      · rw [if_pos h0, h0]
        exact smallestDoubling_eight_one
      · rw [if_neg h0]
        rcases hcap with hc | ⟨_, hc⟩
        · omega
        · rw [heq] at hc
          exact smallestDoubling_double s.size hc
    have hadd : s_add_task_sync s function userdata (some fresh) =
        (let a := nate_ArrayBuffer_Alloc (some s) sizeof_nate_OneTask
          (s_add_task_sync_new_size s.size) (some fresh)
        if a.ret = 0 then some ⟨false, a.st.getD s, a.trace⟩
        else s_add_task_sync_store (a.st.getD s) function userdata a.trace) := by
      unfold s_add_task_sync
      rw [if_pos hg]
    rw [hadd]
    clear hadd
    generalize s_add_task_sync_new_size s.size = ns at *
    generalize hb : sizeof_nate_OneTask * ns % 2 ^ 64 = bytes at *
    rcases nate_ArrayBuffer_Alloc_cases s sizeof_nate_OneTask ns (some fresh) with
      ⟨h1, _⟩ | ⟨_, h1, _⟩ | ⟨_, fr, _, ha⟩
    · omega
    · simp at h1
    · rw [hb] at ha
      rw [ha]
      simp only [Nat.one_ne_zero, if_false, Option.getD_some]
      generalize hc : (List.range (bytes / sizeof_nate_OneTask)).map
        (fun i => (s.data.getD []).getD i (fr i)) = cells1
      have hl1 : cells1.length = ns := by
        rw [← hc, List.length_map, List.length_range, hbytes]
      refine ⟨_, s_add_task_sync_store_eq _ cells1 function userdata _ rfl
        (by dsimp only; omega), rfl, ?_, ?_, ?_, ?_⟩
      · dsimp only
        exact hmod
      · dsimp only
        rw [Option.getD_some, List.length_set, hl1]
      · dsimp only
        rw [hmod]; omega
      · dsimp only
        rw [hmod]
        exact hsd
  · have hlt : s.size < s.allocated := by omega
    cases hd : s.data with
    | none => rw [hd] at hlen; simp at hlen; omega
    | some cells =>
      rw [hd, Option.getD_some] at hlen
      have hin : s.size < cells.length := by omega
      have hadd : s_add_task_sync s function userdata (some fresh) =
          s_add_task_sync_store s function userdata [] := by
        unfold s_add_task_sync
        rw [if_neg hg]
      rw [hadd]
      refine ⟨_, s_add_task_sync_store_eq s cells function userdata [] hd hin, rfl,
        ?_, ?_, ?_, ?_⟩
      · dsimp only
        exact hmod
      · dsimp only
        rw [Option.getD_some, List.length_set, hlen]
      · dsimp only
        rw [hmod]; omega
      · dsimp only
        rw [hmod]
        rcases hcap with hc | ⟨_, hc⟩
        · omega
        · exact smallestDoubling_succ _ _ hc hlt

theorem add_each_grows (items : List (nate_OneTask × Option (Nat → nate_OneTask))) :
    ∀ (s : ArrayBuffer nate_OneTask),
      (s.data.getD []).length = s.allocated → s.size ≤ s.allocated →
      (s.allocated = 0 ∨ (1 ≤ s.size ∧ SmallestDoubling s.allocated s.size)) →
      s.size + items.length ≤ 2 ^ 30 → (∀ x ∈ items, x.2.isSome = true) →
      ∃ r, NATE_TASK_NO_THREAD.add_each s items = some r ∧ (∀ b ∈ r.ret, b = true) ∧
        r.ret.length = items.length ∧ r.st.size = s.size + items.length ∧
        (items ≠ [] → SmallestDoubling r.st.allocated r.st.size) := by
  induction items with
  | nil =>
    intro s _ _ _ _ _
    exact ⟨_, rfl, by simp, rfl, rfl, fun h => absurd rfl h⟩
  | cons x rest ih =>
    intro s hlen hle hcap hsmall hsome
    obtain ⟨task, heap⟩ := x
    have hh : heap.isSome = true := hsome (task, heap) (List.mem_cons_self _ _)
    obtain ⟨fresh, rfl⟩ := Option.isSome_iff_exists.mp hh
    rw [List.length_cons] at hsmall
    obtain ⟨r1, h1, ht, hsz, hlen1, hle1, hsd1⟩ :=
      s_add_task_sync_grows s task.function task.userdata fresh hlen hle hcap (by omega)
    obtain ⟨rs, h2, hall, hl, hsz2, hsd2⟩ := ih r1.st hlen1 hle1
      (Or.inr ⟨by omega, hsd1⟩) (by omega) (fun y hy => hsome y (List.mem_cons_of_mem _ hy))
    refine ⟨⟨r1.ret :: rs.ret, rs.st, r1.trace ++ rs.trace⟩, ?_, ?_, ?_, ?_, fun _ => ?_⟩
    · simp only [NATE_TASK_NO_THREAD.add_each, NATE_TASK_NO_THREAD.nate_Task_Add, h1, h2]
    · intro b hb
      rcases List.mem_cons.mp hb with hb | hb
      · rw [hb, ht]
      · exact hall b hb
    · simp [hl]
    · dsimp only
      rw [hsz2, hsz, List.length_cons]; omega
    · dsimp only
      by_cases hrest : rest = []
      · subst hrest
        simp only [NATE_TASK_NO_THREAD.add_each, Option.some.injEq] at h2
        rw [← h2]
        exact hsd1
      · exact hsd2 hrest

/-- C9. Growth by doubling from 8. Starting from `ArrayBuffer0` with every allocation
succeeding, `k` adds in a row, for `1 <= k <= 2^30` (beyond that `new_size <<= 1` leaves the
range of `int`), all return true, leave `size = k` and leave `allocated` equal to the smallest
value of the form `8 * 2 ^ j` that is at least `k`; so `allocated` is 8 after each of the
first 8 adds and 16 after the 9th. -/
theorem capacity_doubles_from_8 (items : List (nate_OneTask × Option (Nat → nate_OneTask)))
    (hsome : ∀ x ∈ items, x.2.isSome = true) (hk : 1 ≤ items.length)
    (hrange : items.length ≤ 2 ^ 30) :
    ∃ r, NATE_TASK_NO_THREAD.add_each ArrayBuffer0 items = some r ∧
      (∀ b ∈ r.ret, b = true) ∧ r.ret.length = items.length ∧ r.st.size = items.length ∧
      SmallestDoubling r.st.allocated items.length ∧
      (items.length ≤ 8 → r.st.allocated = 8) ∧ (items.length = 9 → r.st.allocated = 16) := by
  obtain ⟨r, h, hall, hl, hsz, hsd⟩ := add_each_grows items ArrayBuffer0 rfl (le_refl _)
    (Or.inl rfl) (by simp only [ArrayBuffer0]; omega) hsome
  have hne : items ≠ [] := by
    intro h0
    rw [h0] at hk
    simp at hk
  have hsz1 : r.st.size = items.length := by rw [hsz]; simp [ArrayBuffer0]
  have hsd1 := hsd hne
  rw [hsz1] at hsd1
  refine ⟨r, h, hall, hl, hsz1, hsd1, fun h8 => ?_, fun h9 => ?_⟩
  · obtain ⟨⟨j, hj⟩, _, hmin⟩ := hsd1
    have := hmin 0 (by omega)
    have hp : 0 < 2 ^ j := Nat.two_pow_pos _
    omega
  · obtain ⟨⟨j, hj⟩, hge, hmin⟩ := hsd1
    have := hmin 1 (by omega)
    cases j with
    | zero => omega
    | succ j =>
      have hp : 0 < 2 ^ j := Nat.two_pow_pos _
      rw [pow_succ] at hj
      omega


theorem capacity_doubles_from_8_witness :
    ∃ r, NATE_TASK_NO_THREAD.add_each ArrayBuffer0
        (List.replicate 9 (⟨1, 2⟩, some (fun _ => ⟨0, 0⟩))) = some r ∧
      r.st.size = 9 ∧ r.st.allocated = 16 := by
  obtain ⟨r, h, _, _, hsz, _, _, h9⟩ := capacity_doubles_from_8
    (List.replicate 9 (⟨1, 2⟩, some (fun _ => ⟨0, 0⟩))) (by decide) (by decide) (by decide)
  exact ⟨r, h, hsz, h9 rfl⟩

/-! ### Monotone capacity (C10) -/

theorem s_fetch_task_sync_allocated (s : ArrayBuffer nate_OneTask)
    (r : Ret nate_OneTask (ArrayBuffer nate_OneTask)) (h : s_fetch_task_sync s = some r) :
    r.st.allocated = s.allocated ∧ r.trace = [] := by
  unfold s_fetch_task_sync at h
  by_cases hpos : s.size > 0
  · rw [if_pos hpos] at h
    cases hd : s.data with
    | none => rw [hd] at h; simp at h
    | some cells =>
      rw [hd] at h
      dsimp only at h
      cases h0 : cells[0]? with
      | none => rw [h0] at h; simp at h
      | some res =>
        rw [h0] at h
        dsimp only at h
        cases hl : s_fetch_task_sync_loop cells 0 (s.size - 1) with
        | none => rw [hl] at h; simp at h
        | some cells1 =>
          rw [hl] at h
          simp only [Option.some.injEq] at h
          rw [← h]
          exact ⟨rfl, rfl⟩
  · rw [if_neg hpos, Option.some.injEq] at h
    rw [← h]
    exact ⟨rfl, rfl⟩

theorem s_add_task_sync_allocated (s : ArrayBuffer nate_OneTask) (function userdata : Nat)
    (heap : Option (Nat → nate_OneTask)) (r : Ret Bool (ArrayBuffer nate_OneTask))
    (h : s_add_task_sync s function userdata heap = some r) :
    s.allocated ≤ r.st.allocated := by
  cases hret : r.ret with
  | false =>
    obtain ⟨_, _, _, hr⟩ := s_add_task_sync_false s function userdata heap r h hret
    rw [hr]
  | true =>
    obtain ⟨_, _, _, hr, _, hle, _⟩ := s_add_task_sync_true s function userdata heap r h hret
    rw [hr]
    exact hle

theorem nothread_update_allocated (s : ArrayBuffer nate_OneTask)
    (r : Ret Unit (ArrayBuffer nate_OneTask))
    (h : NATE_TASK_NO_THREAD.nate_Task_Update s = some r) :
    r.st.allocated = s.allocated := by
  unfold NATE_TASK_NO_THREAD.nate_Task_Update at h
  cases hf : s_fetch_task_sync s with
  | none => rw [hf] at h; simp at h
  | some curr_task =>
    rw [hf] at h
    dsimp only at h
    have ha := (s_fetch_task_sync_allocated s curr_task hf).1
    by_cases hfn : curr_task.ret.function ≠ 0
    · rw [if_pos hfn, Option.some.injEq] at h
      rw [← h]
      exact ha
    · rw [if_neg hfn, Option.some.injEq] at h
      rw [← h]
      exact ha

theorem s_JoinJoinableThread_tasks (st : NATE_TASK_SDL3_THREAD.Runner)
    (state : SDL_ThreadState) :
    (NATE_TASK_SDL3_THREAD.s_JoinJoinableThread st state).st.s_Tasks = st.s_Tasks := by
  unfold NATE_TASK_SDL3_THREAD.s_JoinJoinableThread
  cases st.s_thread with
  | none => rfl
  | some t =>
    dsimp only
    split <;> rfl

theorem s_EnsureRunningThread_tasks (st : NATE_TASK_SDL3_THREAD.Runner)
    (state : SDL_ThreadState) (created : Option Nat) :
    (NATE_TASK_SDL3_THREAD.s_EnsureRunningThread st state created).st.s_Tasks = st.s_Tasks := by
  have hj := s_JoinJoinableThread_tasks st state
  unfold NATE_TASK_SDL3_THREAD.s_EnsureRunningThread
  dsimp only
  cases (NATE_TASK_SDL3_THREAD.s_JoinJoinableThread st state).st.s_thread with
  | some t => exact hj
  | none =>
    dsimp only
    cases created with
    | some t => exact hj
    | none =>
      dsimp only
      unfold NATE_TASK_SDL3_THREAD.s_CleanMutex
      dsimp only
      cases (NATE_TASK_SDL3_THREAD.s_JoinJoinableThread st state).st.s_mutex with
      | none => exact hj
      | some m => exact hj

theorem nate_ArrayBuffer_Alloc_allocated {α : Type} (b : ArrayBuffer α) (elem_size size : Nat)
    (heap : Option (Nat → α)) :
    ∃ b1, (nate_ArrayBuffer_Alloc (some b) elem_size size heap).st = some b1 ∧
      b.allocated ≤ b1.allocated := by
  rcases nate_ArrayBuffer_Alloc_cases b elem_size size heap with
    ⟨_, ha⟩ | ⟨_, _, ha⟩ | ⟨hlt, fresh, _, ha⟩
  · exact ⟨b, by rw [ha], le_refl _⟩
  · exact ⟨b, by rw [ha], le_refl _⟩
  · exact ⟨_, by rw [ha], Nat.le_of_lt hlt⟩

theorem nate_ArrayBuffer_Free_allocated {α : Type} (b : ArrayBuffer α) :
    ∃ b1, (nate_ArrayBuffer_Free (some b)).st = some b1 ∧
      ((b1 = b ∧ (nate_ArrayBuffer_Free (some b)).trace = []) ∨
        (b1.allocated = 0 ∧ (nate_ArrayBuffer_Free (some b)).trace = [Event.free])) := by
  cases hd : b.data with
  | none =>
    rw [nate_ArrayBuffer_Free_null b hd]
    exact ⟨b, rfl, Or.inl ⟨rfl, rfl⟩⟩
  | some cells =>
    rw [nate_ArrayBuffer_Free_data b cells hd]
    exact ⟨_, rfl, Or.inr ⟨rfl, rfl⟩⟩

theorem sdl3_update_allocated (st : NATE_TASK_SDL3_THREAD.Runner) (state : SDL_ThreadState)
    (created : Option Nat) :
    (NATE_TASK_SDL3_THREAD.nate_Task_Update st state created).st.s_Tasks.allocated =
        st.s_Tasks.allocated ∨
      ((NATE_TASK_SDL3_THREAD.nate_Task_Update st state created).st.s_Tasks.allocated = 0 ∧
        Event.free ∈ (NATE_TASK_SDL3_THREAD.nate_Task_Update st state created).trace) := by
  unfold NATE_TASK_SDL3_THREAD.nate_Task_Update
  by_cases hs : st.s_Tasks.size ≠ 0
  · rw [if_pos hs]
    left
    dsimp only
    rw [s_EnsureRunningThread_tasks]
  · rw [if_neg hs]
    dsimp only
    have hj := s_JoinJoinableThread_tasks st state
    by_cases ha : (NATE_TASK_SDL3_THREAD.s_JoinJoinableThread st state).st.s_Tasks.allocated ≠ 0
    · rw [if_pos ha]
      dsimp only
      obtain ⟨b1, hb1, hcase⟩ := nate_ArrayBuffer_Free_allocated
        (NATE_TASK_SDL3_THREAD.s_JoinJoinableThread st state).st.s_Tasks
      rw [hb1, Option.getD_some]
      rcases hcase with ⟨h1, _⟩ | ⟨h1, h2⟩
      · left
        rw [h1, hj]
      · right
        refine ⟨h1, ?_⟩
        rw [h2]
        simp
    · rw [if_neg ha]
      left
      dsimp only
      rw [hj]

/-- C10. Capacity never goes down except to 0 through `nate_ArrayBuffer_Free`.
`nate_ArrayBuffer_Alloc` (any target), `s_add_task_sync`, `s_fetch_task_sync` and the
`nate_Task_Update` of the build without threads leave `allocated` at least as large as it
was. `nate_ArrayBuffer_Free` either leaves the store as it was or, calling `free`, leaves
`allocated = 0`; the `nate_Task_Update` of the threaded build either leaves `allocated` as
it was or, through a `free`, leaves it at 0. -/
theorem capacity_monotone {α : Type} (b : ArrayBuffer α) (elem_size size : Nat)
    (heap : Option (Nat → α)) (s : ArrayBuffer nate_OneTask) (function userdata : Nat)
    (heap1 : Option (Nat → nate_OneTask)) (st : NATE_TASK_SDL3_THREAD.Runner)
    (state : SDL_ThreadState) (created : Option Nat) :
    (∃ b1, (nate_ArrayBuffer_Alloc (some b) elem_size size heap).st = some b1 ∧
      b.allocated ≤ b1.allocated) ∧
    (∀ r, s_add_task_sync s function userdata heap1 = some r →
      s.allocated ≤ r.st.allocated) ∧
    (∀ r, s_fetch_task_sync s = some r → s.allocated ≤ r.st.allocated) ∧
    (∀ r, NATE_TASK_NO_THREAD.nate_Task_Update s = some r → s.allocated ≤ r.st.allocated) ∧
    (∃ b1, (nate_ArrayBuffer_Free (some b)).st = some b1 ∧
      ((b1 = b ∧ (nate_ArrayBuffer_Free (some b)).trace = []) ∨
        (b1.allocated = 0 ∧ (nate_ArrayBuffer_Free (some b)).trace = [Event.free]))) ∧
    ((NATE_TASK_SDL3_THREAD.nate_Task_Update st state created).st.s_Tasks.allocated =
        st.s_Tasks.allocated ∨
      ((NATE_TASK_SDL3_THREAD.nate_Task_Update st state created).st.s_Tasks.allocated = 0 ∧
        Event.free ∈ (NATE_TASK_SDL3_THREAD.nate_Task_Update st state created).trace)) :=
  ⟨nate_ArrayBuffer_Alloc_allocated b elem_size size heap,
    fun r h => s_add_task_sync_allocated s function userdata heap1 r h,
    fun r h => Nat.le_of_eq (s_fetch_task_sync_allocated s r h).1.symm,
    fun r h => Nat.le_of_eq (nothread_update_allocated s r h).symm,
    nate_ArrayBuffer_Free_allocated b,
    sdl3_update_allocated st state created⟩

theorem capacity_monotone_witness :
    (⟨some [⟨1, 10⟩, ⟨2, 20⟩], 2, 2⟩ : ArrayBuffer nate_OneTask).allocated ≤
        (⟨true, ⟨some [⟨1, 10⟩, ⟨2, 20⟩, ⟨3, 30⟩, ⟨0, 0⟩], 3, 4⟩, [Event.realloc 64 true]⟩ :
          Ret Bool (ArrayBuffer nate_OneTask)).st.allocated ∧
      (⟨some [⟨1, 10⟩, ⟨2, 20⟩], 2, 2⟩ : ArrayBuffer nate_OneTask).allocated ≤
        (⟨⟨1, 10⟩, ⟨some [⟨2, 20⟩, ⟨2, 20⟩], 1, 2⟩, []⟩ :
          Ret nate_OneTask (ArrayBuffer nate_OneTask)).st.allocated ∧
      (⟨some [⟨1, 10⟩, ⟨2, 20⟩], 2, 2⟩ : ArrayBuffer nate_OneTask).allocated ≤
        (⟨(), ⟨some [⟨2, 20⟩, ⟨2, 20⟩], 1, 2⟩, [Event.call 1 10]⟩ :
          Ret Unit (ArrayBuffer nate_OneTask)).st.allocated :=
  ⟨(capacity_monotone (ArrayBuffer0 : ArrayBuffer Nat) 0 0 none
      ⟨some [⟨1, 10⟩, ⟨2, 20⟩], 2, 2⟩ 3 30 (some (fun _ => ⟨0, 0⟩)) ⟨ArrayBuffer0, none, none⟩
      SDL_ThreadState.SDL_THREAD_ALIVE none).2.1
      ⟨true, ⟨some [⟨1, 10⟩, ⟨2, 20⟩, ⟨3, 30⟩, ⟨0, 0⟩], 3, 4⟩, [Event.realloc 64 true]⟩
      (by decide),
    (capacity_monotone (ArrayBuffer0 : ArrayBuffer Nat) 0 0 none
      ⟨some [⟨1, 10⟩, ⟨2, 20⟩], 2, 2⟩ 3 30 none ⟨ArrayBuffer0, none, none⟩
      SDL_ThreadState.SDL_THREAD_ALIVE none).2.2.1
      ⟨⟨1, 10⟩, ⟨some [⟨2, 20⟩, ⟨2, 20⟩], 1, 2⟩, []⟩ (by decide),
    (capacity_monotone (ArrayBuffer0 : ArrayBuffer Nat) 0 0 none
      ⟨some [⟨1, 10⟩, ⟨2, 20⟩], 2, 2⟩ 3 30 none ⟨ArrayBuffer0, none, none⟩
      SDL_ThreadState.SDL_THREAD_ALIVE none).2.2.2.1
      ⟨(), ⟨some [⟨2, 20⟩, ⟨2, 20⟩], 1, 2⟩, [Event.call 1 10]⟩ (by decide)⟩

/-! ### One task per poll in the build without threads (C11) -/

theorem nothread_update_some (s : ArrayBuffer nate_OneTask)
    (r : Ret Unit (ArrayBuffer nate_OneTask))
    (h : NATE_TASK_NO_THREAD.nate_Task_Update s = some r) :
    ∃ curr_task, s_fetch_task_sync s = some curr_task ∧ r.st = curr_task.st ∧
      r.trace = if curr_task.ret.function ≠ 0 then
        [Event.call curr_task.ret.function curr_task.ret.userdata] else [] := by
  unfold NATE_TASK_NO_THREAD.nate_Task_Update at h
  cases hf : s_fetch_task_sync s with
  | none => rw [hf] at h; simp at h
  | some curr_task =>
    rw [hf] at h
    dsimp only at h
    have htr := (s_fetch_task_sync_allocated s curr_task hf).2
    refine ⟨curr_task, rfl, ?_⟩
    by_cases hfn : curr_task.ret.function ≠ 0
    · rw [if_pos hfn, Option.some.injEq] at h
      rw [← h, if_pos hfn, htr]
      exact ⟨rfl, rfl⟩
    · rw [if_neg hfn, Option.some.injEq] at h
      rw [← h, if_neg hfn, htr]
      exact ⟨rfl, rfl⟩

theorem s_fetch_task_sync_size (s : ArrayBuffer nate_OneTask)
    (r : Ret nate_OneTask (ArrayBuffer nate_OneTask)) (h : s_fetch_task_sync s = some r) :
    r.st.size = s.size - 1 := by
  unfold s_fetch_task_sync at h
  by_cases hpos : s.size > 0
  · rw [if_pos hpos] at h
    cases hd : s.data with
    | none => rw [hd] at h; simp at h
    | some cells =>
      rw [hd] at h
      dsimp only at h
      cases h0 : cells[0]? with
      | none => rw [h0] at h; simp at h
      | some res =>
        rw [h0] at h
        dsimp only at h
        cases hl : s_fetch_task_sync_loop cells 0 (s.size - 1) with
        | none => rw [hl] at h; simp at h
        | some cells1 =>
          rw [hl] at h
          simp only [Option.some.injEq] at h
          rw [← h]
  · rw [if_neg hpos, Option.some.injEq] at h
    rw [← h]
    dsimp only
    omega

/-- C11. One `nate_Task_Update` of the build without threads runs at most one task. On an
empty queue (`size = 0`) it calls nothing and leaves `s_Tasks` as it was. On a queue that
holds `x :: q` it removes exactly the head `x` (`size` goes down by exactly 1, `q` stays) and
calls the function of `x` once with the user data of `x` when that function is not `NULL`,
and nothing otherwise. Whenever the call returns, its trace has at most one entry and `size`
has gone down by at most 1. -/
theorem nothread_update_one_task (s : ArrayBuffer nate_OneTask) :
    (s.size = 0 → NATE_TASK_NO_THREAD.nate_Task_Update s = some ⟨(), s, []⟩) ∧
    (∀ x q, Holds s (x :: q) →
      ∃ st1, NATE_TASK_NO_THREAD.nate_Task_Update s =
          some ⟨(), st1, if x.function ≠ 0 then [Event.call x.function x.userdata] else []⟩ ∧
        st1.size + 1 = s.size ∧ Holds st1 q) ∧
    (∀ r, NATE_TASK_NO_THREAD.nate_Task_Update s = some r →
      r.trace.length ≤ 1 ∧ (calls r.trace).length ≤ 1 ∧ r.st.size = s.size - 1) := by
  refine ⟨fun h0 => ?_, fun x q hq => ?_, fun r h => ?_⟩
  · simp [NATE_TASK_NO_THREAD.nate_Task_Update, s_fetch_task_sync_empty s h0]
  · obtain ⟨st1, hf, hsz, _, hq1⟩ := s_fetch_task_sync_holds s x q hq
    refine ⟨st1, ?_, ?_, hq1⟩
    · unfold NATE_TASK_NO_THREAD.nate_Task_Update
      rw [hf]
      dsimp only
      split <;> simp
    · have := hq.1
      rw [List.length_cons] at this
      omega
  · obtain ⟨curr_task, hf, hst, htr⟩ := nothread_update_some s r h
    rw [hst, htr, s_fetch_task_sync_size s curr_task hf]
    split <;> simp [calls]

theorem nothread_update_one_task_witness :
    (∃ st1, NATE_TASK_NO_THREAD.nate_Task_Update
          ⟨some [⟨1, 10⟩, ⟨2, 20⟩, ⟨3, 30⟩, ⟨7, 7⟩], 3, 4⟩ =
          some ⟨(), st1, if (⟨1, 10⟩ : nate_OneTask).function ≠ 0 then
            [Event.call (⟨1, 10⟩ : nate_OneTask).function (⟨1, 10⟩ : nate_OneTask).userdata]
            else []⟩ ∧
        st1.size + 1 = 3 ∧ Holds st1 [⟨2, 20⟩, ⟨3, 30⟩]) ∧
      NATE_TASK_NO_THREAD.nate_Task_Update ⟨some [⟨1, 10⟩], 0, 1⟩ =
        some ⟨(), ⟨some [⟨1, 10⟩], 0, 1⟩, []⟩ :=
  ⟨(nothread_update_one_task ⟨some [⟨1, 10⟩, ⟨2, 20⟩, ⟨3, 30⟩, ⟨7, 7⟩], 3, 4⟩).2.1 ⟨1, 10⟩
      [⟨2, 20⟩, ⟨3, 30⟩] ⟨rfl, rfl, by simp⟩,
    (nothread_update_one_task ⟨some [⟨1, 10⟩], 0, 1⟩).1 rfl⟩


/-! ### The poll of the threaded build (C12, C14) -/

theorem s_JoinJoinableThread_none (st : NATE_TASK_SDL3_THREAD.Runner) (state : SDL_ThreadState)
    (h : st.s_thread = none) :
    NATE_TASK_SDL3_THREAD.s_JoinJoinableThread st state = ⟨(), st, []⟩ := by
  unfold NATE_TASK_SDL3_THREAD.s_JoinJoinableThread
  rw [h]

theorem s_JoinJoinableThread_running (st : NATE_TASK_SDL3_THREAD.Runner)
    (state : SDL_ThreadState) (t : Nat) (h : st.s_thread = some t)
    (hs : state ≠ SDL_ThreadState.SDL_THREAD_COMPLETE) :
    NATE_TASK_SDL3_THREAD.s_JoinJoinableThread st state =
      ⟨(), st, [Event.SDL_GetThreadState t state]⟩ := by
  unfold NATE_TASK_SDL3_THREAD.s_JoinJoinableThread
  rw [h]
  dsimp only
  rw [if_neg hs]

theorem s_JoinJoinableThread_complete (st : NATE_TASK_SDL3_THREAD.Runner)
    (state : SDL_ThreadState) (t : Nat) (h : st.s_thread = some t)
    (hs : state = SDL_ThreadState.SDL_THREAD_COMPLETE) :
    NATE_TASK_SDL3_THREAD.s_JoinJoinableThread st state =
      ⟨(), ⟨st.s_Tasks, st.s_mutex, none⟩,
        [Event.SDL_GetThreadState t state, Event.SDL_WaitThread t]⟩ := by
  unfold NATE_TASK_SDL3_THREAD.s_JoinJoinableThread
  rw [h]
  dsimp only
  rw [if_pos hs]

theorem sdl3_update_nonempty (st : NATE_TASK_SDL3_THREAD.Runner) (state : SDL_ThreadState)
    (created : Option Nat) (h : st.s_Tasks.size ≠ 0) :
    NATE_TASK_SDL3_THREAD.nate_Task_Update st state created =
      ⟨(), (NATE_TASK_SDL3_THREAD.s_EnsureRunningThread st state created).st,
        [Event.SDL_LockMutex st.s_mutex] ++
          (NATE_TASK_SDL3_THREAD.s_EnsureRunningThread st state created).trace ++
          [Event.SDL_UnlockMutex
            (NATE_TASK_SDL3_THREAD.s_EnsureRunningThread st state created).st.s_mutex]⟩ := by
  unfold NATE_TASK_SDL3_THREAD.nate_Task_Update
  rw [if_pos h]

theorem s_EnsureRunningThread_present (st : NATE_TASK_SDL3_THREAD.Runner)
    (state : SDL_ThreadState) (created : Option Nat) (t : Nat)
    (h : (NATE_TASK_SDL3_THREAD.s_JoinJoinableThread st state).st.s_thread = some t) :
    NATE_TASK_SDL3_THREAD.s_EnsureRunningThread st state created =
      ⟨true, (NATE_TASK_SDL3_THREAD.s_JoinJoinableThread st state).st,
        (NATE_TASK_SDL3_THREAD.s_JoinJoinableThread st state).trace⟩ := by
  unfold NATE_TASK_SDL3_THREAD.s_EnsureRunningThread
  dsimp only
  rw [h]

theorem s_EnsureRunningThread_spawn (st : NATE_TASK_SDL3_THREAD.Runner)
    (state : SDL_ThreadState) (t : Nat)
    (h : (NATE_TASK_SDL3_THREAD.s_JoinJoinableThread st state).st.s_thread = none) :
    NATE_TASK_SDL3_THREAD.s_EnsureRunningThread st state (some t) =
      ⟨true, ⟨st.s_Tasks, st.s_mutex, some t⟩,
        (NATE_TASK_SDL3_THREAD.s_JoinJoinableThread st state).trace ++
          [Event.SDL_CreateThread (some t)]⟩ := by
  have ht := s_JoinJoinableThread_tasks st state
  have hm : (NATE_TASK_SDL3_THREAD.s_JoinJoinableThread st state).st.s_mutex = st.s_mutex := by
    unfold NATE_TASK_SDL3_THREAD.s_JoinJoinableThread
    cases st.s_thread with
    | none => rfl
    | some t =>
      dsimp only
      split <;> rfl
  unfold NATE_TASK_SDL3_THREAD.s_EnsureRunningThread
  dsimp only
  rw [h]
  dsimp only
  rw [ht, hm]

theorem s_EnsureRunningThread_fail (st : NATE_TASK_SDL3_THREAD.Runner)
    (state : SDL_ThreadState)
    (h : (NATE_TASK_SDL3_THREAD.s_JoinJoinableThread st state).st.s_thread = none) :
    NATE_TASK_SDL3_THREAD.s_EnsureRunningThread st state none =
      ⟨false, ⟨st.s_Tasks, none, none⟩,
        (NATE_TASK_SDL3_THREAD.s_JoinJoinableThread st state).trace ++
          [Event.SDL_CreateThread none, Event.SDL_LogError] ++
          (match st.s_mutex with
            | some m => [Event.SDL_DestroyMutex m]
            | none => [])⟩ := by
  have ht := s_JoinJoinableThread_tasks st state
  have hm : (NATE_TASK_SDL3_THREAD.s_JoinJoinableThread st state).st.s_mutex = st.s_mutex := by
    unfold NATE_TASK_SDL3_THREAD.s_JoinJoinableThread
    cases st.s_thread with
    | none => rfl
    | some t =>
      dsimp only
      split <;> rfl
  unfold NATE_TASK_SDL3_THREAD.s_EnsureRunningThread NATE_TASK_SDL3_THREAD.s_CleanMutex
  dsimp only
  rw [h]
  dsimp only
  rw [ht, hm]
  cases hmx : st.s_mutex with
  | none => rfl
  | some m => rfl


theorem sdl3_update_empty (st : NATE_TASK_SDL3_THREAD.Runner) (state : SDL_ThreadState)
    (created : Option Nat) (h : st.s_Tasks.size = 0) :
    NATE_TASK_SDL3_THREAD.nate_Task_Update st state created =
      ⟨(), ⟨if st.s_Tasks.allocated ≠ 0 then
            (nate_ArrayBuffer_Free (some st.s_Tasks)).st.getD st.s_Tasks else st.s_Tasks,
          st.s_mutex, (NATE_TASK_SDL3_THREAD.s_JoinJoinableThread st state).st.s_thread⟩,
        [Event.SDL_LockMutex st.s_mutex] ++
          (NATE_TASK_SDL3_THREAD.s_JoinJoinableThread st state).trace ++
          (if st.s_Tasks.allocated ≠ 0 then (nate_ArrayBuffer_Free (some st.s_Tasks)).trace
            else []) ++
          [Event.SDL_UnlockMutex st.s_mutex]⟩ := by
  have ht := s_JoinJoinableThread_tasks st state
  have hm : (NATE_TASK_SDL3_THREAD.s_JoinJoinableThread st state).st.s_mutex = st.s_mutex := by
    unfold NATE_TASK_SDL3_THREAD.s_JoinJoinableThread
    cases st.s_thread with
    | none => rfl
    | some t =>
      dsimp only
      split <;> rfl
  unfold NATE_TASK_SDL3_THREAD.nate_Task_Update
  have h0 : ¬ (st.s_Tasks.size ≠ 0) := fun hne => hne h
  rw [if_neg h0]
  dsimp only
  rw [ht, hm]
  by_cases ha : st.s_Tasks.allocated ≠ 0
  · rw [if_pos ha, if_pos ha, if_pos ha]
  · rw [if_neg ha, if_neg ha, if_neg ha]
    simp only [List.append_nil]
    have : (NATE_TASK_SDL3_THREAD.s_JoinJoinableThread st state).st =
        ⟨st.s_Tasks, st.s_mutex,
          (NATE_TASK_SDL3_THREAD.s_JoinJoinableThread st state).st.s_thread⟩ := by
      rw [← ht, ← hm]
    rw [← this]

/-- C12. At most one worker. When the queue is not empty and `s_thread` holds a handle whose
thread SDL does not report as complete, `nate_Task_Update` only locks, asks for the thread
state and unlocks: no `SDL_CreateThread`, no `SDL_WaitThread`, and all globals (handle and
queue included) are as before. Whenever a call of `nate_Task_Update` does call
`SDL_CreateThread`, the queue is not empty and the handle was absent at entry, or it held a
thread reported complete, which the call has waited for before it spawns. -/
theorem sdl3_update_one_worker (st : NATE_TASK_SDL3_THREAD.Runner) (state : SDL_ThreadState)
    (created : Option Nat) :
    (∀ t, st.s_Tasks.size ≠ 0 → st.s_thread = some t →
      state ≠ SDL_ThreadState.SDL_THREAD_COMPLETE →
      NATE_TASK_SDL3_THREAD.nate_Task_Update st state created =
        ⟨(), st, [Event.SDL_LockMutex st.s_mutex, Event.SDL_GetThreadState t state,
          Event.SDL_UnlockMutex st.s_mutex]⟩) ∧
    (∀ c, Event.SDL_CreateThread c ∈
        (NATE_TASK_SDL3_THREAD.nate_Task_Update st state created).trace →
      st.s_Tasks.size ≠ 0 ∧ c = created ∧
      (st.s_thread = none ∨
        ∃ t, st.s_thread = some t ∧ state = SDL_ThreadState.SDL_THREAD_COMPLETE ∧
          (NATE_TASK_SDL3_THREAD.nate_Task_Update st state created).trace.take 3 =
            [Event.SDL_LockMutex st.s_mutex, Event.SDL_GetThreadState t state,
              Event.SDL_WaitThread t])) := by
  have hrun : ∀ t, st.s_Tasks.size ≠ 0 → st.s_thread = some t →
      state ≠ SDL_ThreadState.SDL_THREAD_COMPLETE →
      NATE_TASK_SDL3_THREAD.nate_Task_Update st state created =
        ⟨(), st, [Event.SDL_LockMutex st.s_mutex, Event.SDL_GetThreadState t state,
          Event.SDL_UnlockMutex st.s_mutex]⟩ := by
    intro t hsize ht hs
    have hj := s_JoinJoinableThread_running st state t ht hs
    rw [sdl3_update_nonempty st state created hsize,
      s_EnsureRunningThread_present st state created t (by rw [hj]; exact ht), hj]
    rfl
  refine ⟨hrun, fun c hc => ?_⟩
  by_cases hsize : st.s_Tasks.size = 0
  · exfalso
    rw [sdl3_update_empty st state created hsize] at hc
    have hfree : (nate_ArrayBuffer_Free (some st.s_Tasks)).trace = [] ∨
        (nate_ArrayBuffer_Free (some st.s_Tasks)).trace = [Event.free] := by
      obtain ⟨_, _, h1 | h1⟩ := nate_ArrayBuffer_Free_allocated st.s_Tasks
      · exact Or.inl h1.2
      · exact Or.inr h1.2
    cases hth : st.s_thread with
    | none =>
      rw [s_JoinJoinableThread_none st state hth] at hc
      rcases hfree with hf | hf <;> (rw [hf] at hc; split at hc <;> simp at hc)
    | some t =>
      by_cases hs : state = SDL_ThreadState.SDL_THREAD_COMPLETE
      · rw [s_JoinJoinableThread_complete st state t hth hs] at hc
        rcases hfree with hf | hf <;> (rw [hf] at hc; split at hc <;> simp at hc)
      · rw [s_JoinJoinableThread_running st state t hth hs] at hc
        rcases hfree with hf | hf <;> (rw [hf] at hc; split at hc <;> simp at hc)
  · refine ⟨hsize, ?_⟩
    cases hth : st.s_thread with
    | none =>
      have hj := s_JoinJoinableThread_none st state hth
      have hjn : (NATE_TASK_SDL3_THREAD.s_JoinJoinableThread st state).st.s_thread = none := by
        rw [hj]; exact hth
      refine ⟨?_, Or.inl rfl⟩
      rw [sdl3_update_nonempty st state created hsize] at hc
      cases created with
      | none =>
        rw [s_EnsureRunningThread_fail st state hjn, hj] at hc
        cases hm : st.s_mutex with
        | none => rw [hm] at hc; simpa using hc
        | some m => rw [hm] at hc; simpa using hc
      | some t2 =>
        rw [s_EnsureRunningThread_spawn st state t2 hjn, hj] at hc
        simpa using hc
    | some t =>
      by_cases hs : state = SDL_ThreadState.SDL_THREAD_COMPLETE
      · have hj := s_JoinJoinableThread_complete st state t hth hs
        have hjn : (NATE_TASK_SDL3_THREAD.s_JoinJoinableThread st state).st.s_thread = none := by
          rw [hj]
        rw [sdl3_update_nonempty st state created hsize] at hc ⊢
        cases created with
        | none =>
          rw [s_EnsureRunningThread_fail st state hjn, hj] at hc ⊢
          refine ⟨?_, Or.inr ⟨t, rfl, hs, rfl⟩⟩
          cases hm : st.s_mutex with
          | none => rw [hm] at hc; simpa using hc
          | some m => rw [hm] at hc; simpa using hc
        | some t2 =>
          rw [s_EnsureRunningThread_spawn st state t2 hjn, hj] at hc ⊢
          refine ⟨?_, Or.inr ⟨t, rfl, hs, rfl⟩⟩
          simpa using hc
      · exfalso
        rw [hrun t hsize hth hs] at hc
        simp at hc

theorem sdl3_update_one_worker_witness :
    NATE_TASK_SDL3_THREAD.nate_Task_Update ⟨⟨some [⟨1, 10⟩], 1, 1⟩, some 5, some 6⟩
        SDL_ThreadState.SDL_THREAD_ALIVE (some 9) =
      ⟨(), ⟨⟨some [⟨1, 10⟩], 1, 1⟩, some 5, some 6⟩,
        [Event.SDL_LockMutex (some 5),
          Event.SDL_GetThreadState 6 SDL_ThreadState.SDL_THREAD_ALIVE,
          Event.SDL_UnlockMutex (some 5)]⟩ ∧
      ((1 : Nat) ≠ 0 ∧ some 9 = some 9 ∧
        ((some 6 : Option Nat) = none ∨
          ∃ t, (some 6 : Option Nat) = some t ∧
            SDL_ThreadState.SDL_THREAD_COMPLETE = SDL_ThreadState.SDL_THREAD_COMPLETE ∧
            (NATE_TASK_SDL3_THREAD.nate_Task_Update ⟨⟨some [⟨1, 10⟩], 1, 1⟩, some 5, some 6⟩
              SDL_ThreadState.SDL_THREAD_COMPLETE (some 9)).trace.take 3 =
              [Event.SDL_LockMutex (some 5),
                Event.SDL_GetThreadState t SDL_ThreadState.SDL_THREAD_COMPLETE,
                Event.SDL_WaitThread t])) :=
  ⟨(sdl3_update_one_worker ⟨⟨some [⟨1, 10⟩], 1, 1⟩, some 5, some 6⟩
      SDL_ThreadState.SDL_THREAD_ALIVE (some 9)).1 6 (by decide) rfl (by decide),
    (sdl3_update_one_worker ⟨⟨some [⟨1, 10⟩], 1, 1⟩, some 5, some 6⟩
      SDL_ThreadState.SDL_THREAD_COMPLETE (some 9)).2 (some 9) (by decide)⟩


theorem nate_ArrayBuffer_Free_trace {α : Type} (b : ArrayBuffer α) :
    (nate_ArrayBuffer_Free (some b)).trace = [] ∨
      (nate_ArrayBuffer_Free (some b)).trace = [Event.free] := by
  obtain ⟨_, _, h1 | h1⟩ := nate_ArrayBuffer_Free_allocated b
  · exact Or.inl h1.2
  · exact Or.inr h1.2

theorem sdl3_update_empty_filter (st : NATE_TASK_SDL3_THREAD.Runner) (state : SDL_ThreadState)
    (created : Option Nat) (h : st.s_Tasks.size = 0) :
    (NATE_TASK_SDL3_THREAD.nate_Task_Update st state created).trace.filter Event.isWait =
        (NATE_TASK_SDL3_THREAD.s_JoinJoinableThread st state).trace.filter Event.isWait ∧
      (NATE_TASK_SDL3_THREAD.nate_Task_Update st state created).trace.filter
        Event.isCreateThread = [] := by
  rw [sdl3_update_empty st state created h]
  dsimp only
  have hj : (NATE_TASK_SDL3_THREAD.s_JoinJoinableThread st state).trace.filter
      Event.isCreateThread = [] := by
    unfold NATE_TASK_SDL3_THREAD.s_JoinJoinableThread
    cases st.s_thread with
    | none => rfl
    | some t =>
      dsimp only
      split <;> rfl
  rcases nate_ArrayBuffer_Free_trace st.s_Tasks with hf | hf
  · rw [hf]
    constructor
    · simp [Event.isWait]
    · simp only [List.filter_append, hj]
      split <;> simp [Event.isCreateThread]
  · rw [hf]
    constructor
    · simp only [List.filter_append]
      split <;> simp [Event.isWait]
    · simp only [List.filter_append, hj]
      split <;> simp [Event.isCreateThread]

theorem sdl3_update_empty_size (st : NATE_TASK_SDL3_THREAD.Runner) (state : SDL_ThreadState)
    (created : Option Nat) (h : st.s_Tasks.size = 0) :
    (NATE_TASK_SDL3_THREAD.nate_Task_Update st state created).st.s_Tasks.size = 0 ∧
      (NATE_TASK_SDL3_THREAD.nate_Task_Update st state created).st.s_thread =
        (NATE_TASK_SDL3_THREAD.s_JoinJoinableThread st state).st.s_thread ∧
      (NATE_TASK_SDL3_THREAD.nate_Task_Update st state created).st.s_mutex = st.s_mutex := by
  rw [sdl3_update_empty st state created h]
  refine ⟨?_, rfl, rfl⟩
  dsimp only
  split
  · obtain ⟨b1, hb1, h1 | h1⟩ := nate_ArrayBuffer_Free_allocated st.s_Tasks
    · rw [hb1, Option.getD_some, h1.1]
      exact h
    · cases hd : st.s_Tasks.data with
      | none => rw [nate_ArrayBuffer_Free_null _ hd]; exact h
      | some cells => rw [nate_ArrayBuffer_Free_data _ cells hd]; rfl
  · exact h

theorem sdl3_update_empty_store (st : NATE_TASK_SDL3_THREAD.Runner) (state : SDL_ThreadState)
    (created : Option Nat) (h : st.s_Tasks.size = 0) (hwf : DataIffAllocated st.s_Tasks) :
    (NATE_TASK_SDL3_THREAD.nate_Task_Update st state created).st.s_Tasks = ⟨none, 0, 0⟩ := by
  rw [sdl3_update_empty st state created h]
  dsimp only
  by_cases ha : st.s_Tasks.allocated ≠ 0
  · rw [if_pos ha]
    have hd : st.s_Tasks.data ≠ none := hwf.mpr (Nat.pos_of_ne_zero ha)
    cases hdd : st.s_Tasks.data with
    | none => exact absurd hdd hd
    | some cells => rw [nate_ArrayBuffer_Free_data _ cells hdd]; rfl
  · rw [if_neg ha]
    have ha0 : st.s_Tasks.allocated = 0 := by omega
    have hd : st.s_Tasks.data = none := by
      by_contra hne
      have := hwf.mp hne
      omega
    cases hs : st.s_Tasks with
    | mk data size allocated =>
      rw [hs] at hd ha0 h
      dsimp only at hd ha0 h
      rw [hd, ha0, h]

theorem s_JoinJoinableThread_cases (st : NATE_TASK_SDL3_THREAD.Runner)
    (state : SDL_ThreadState) :
    (st.s_thread = none ∧
      (NATE_TASK_SDL3_THREAD.s_JoinJoinableThread st state).st.s_thread = none ∧
      (NATE_TASK_SDL3_THREAD.s_JoinJoinableThread st state).trace.filter Event.isWait = []) ∨
    (∃ t, st.s_thread = some t ∧ state = SDL_ThreadState.SDL_THREAD_COMPLETE ∧
      (NATE_TASK_SDL3_THREAD.s_JoinJoinableThread st state).st.s_thread = none ∧
      (NATE_TASK_SDL3_THREAD.s_JoinJoinableThread st state).trace.filter Event.isWait =
        [Event.SDL_WaitThread t]) ∨
    (∃ t, st.s_thread = some t ∧ state ≠ SDL_ThreadState.SDL_THREAD_COMPLETE ∧
      (NATE_TASK_SDL3_THREAD.s_JoinJoinableThread st state).st.s_thread = some t ∧
      (NATE_TASK_SDL3_THREAD.s_JoinJoinableThread st state).trace.filter Event.isWait = []) := by
  cases hth : st.s_thread with
  | none =>
    left
    rw [s_JoinJoinableThread_none st state hth]
    exact ⟨rfl, hth, rfl⟩
  | some t =>
    right
    by_cases hs : state = SDL_ThreadState.SDL_THREAD_COMPLETE
    · left
      rw [s_JoinJoinableThread_complete st state t hth hs]
      exact ⟨t, rfl, hs, rfl, rfl⟩
    · right
      rw [s_JoinJoinableThread_running st state t hth hs]
      exact ⟨t, rfl, hs, hth, rfl⟩

/-- C14, as amended. Two idle polls. From a runner state with an empty queue, two calls of
`nate_Task_Update` in a row call `SDL_WaitThread` at most once in total and never call
`SDL_CreateThread`. Afterwards `s_thread` is `NULL` when it was `NULL` at the start or when
the thread was reported complete at one of the two calls; a handle whose thread is reported
not complete at both calls is still in place, and has not been waited for. -/
theorem sdl3_two_idle_updates (st : NATE_TASK_SDL3_THREAD.Runner)
    (state1 : SDL_ThreadState) (created1 : Option Nat) (state2 : SDL_ThreadState)
    (created2 : Option Nat) (hsize : st.s_Tasks.size = 0) :
    ((NATE_TASK_SDL3_THREAD.update_twice st state1 created1 state2 created2).trace.filter
      Event.isWait).length ≤ 1 ∧
    (NATE_TASK_SDL3_THREAD.update_twice st state1 created1 state2 created2).trace.filter
      Event.isCreateThread = [] ∧
    ((st.s_thread = none ∨ state1 = SDL_ThreadState.SDL_THREAD_COMPLETE ∨
        state2 = SDL_ThreadState.SDL_THREAD_COMPLETE) →
      (NATE_TASK_SDL3_THREAD.update_twice st state1 created1 state2 created2).st.s_thread =
        none) ∧
    (∀ t, st.s_thread = some t → state1 ≠ SDL_ThreadState.SDL_THREAD_COMPLETE →
      state2 ≠ SDL_ThreadState.SDL_THREAD_COMPLETE →
      (NATE_TASK_SDL3_THREAD.update_twice st state1 created1 state2 created2).st.s_thread =
        some t ∧
      (NATE_TASK_SDL3_THREAD.update_twice st state1 created1 state2 created2).trace.filter
        Event.isWait = []) := by
  obtain ⟨hsz1, hth1, _⟩ := sdl3_update_empty_size st state1 created1 hsize
  obtain ⟨hw1, hc1⟩ := sdl3_update_empty_filter st state1 created1 hsize
  obtain ⟨_, hth2, _⟩ := sdl3_update_empty_size
    (NATE_TASK_SDL3_THREAD.nate_Task_Update st state1 created1).st state2 created2 hsz1
  obtain ⟨hw2, hc2⟩ := sdl3_update_empty_filter
    (NATE_TASK_SDL3_THREAD.nate_Task_Update st state1 created1).st state2 created2 hsz1
  have hst : (NATE_TASK_SDL3_THREAD.update_twice st state1 created1 state2 created2).st =
      (NATE_TASK_SDL3_THREAD.nate_Task_Update
        (NATE_TASK_SDL3_THREAD.nate_Task_Update st state1 created1).st state2 created2).st :=
    rfl
  have htr : (NATE_TASK_SDL3_THREAD.update_twice st state1 created1 state2 created2).trace =
      (NATE_TASK_SDL3_THREAD.nate_Task_Update st state1 created1).trace ++
      (NATE_TASK_SDL3_THREAD.nate_Task_Update
        (NATE_TASK_SDL3_THREAD.nate_Task_Update st state1 created1).st state2 created2).trace :=
    rfl
  rw [hst, htr, List.filter_append, List.filter_append, hw1, hw2, hc1, hc2, hth2]
  generalize hr1 : (NATE_TASK_SDL3_THREAD.nate_Task_Update st state1 created1).st = st1
    at hth1 ⊢
  rcases s_JoinJoinableThread_cases st state1 with
    ⟨h0, hj1, hwj1⟩ | ⟨t, h0, hs1, hj1, hwj1⟩ | ⟨t, h0, hs1, hj1, hwj1⟩
  · have hn : st1.s_thread = none := by rw [hth1, hj1]
    rw [hwj1, s_JoinJoinableThread_none st1 state2 hn]
    refine ⟨by simp, rfl, fun _ => hn, fun t ht => ?_⟩
    rw [h0] at ht
    simp at ht
  · have hn : st1.s_thread = none := by rw [hth1, hj1]
    rw [hwj1, s_JoinJoinableThread_none st1 state2 hn]
    refine ⟨by simp, rfl, fun _ => hn, fun t2 _ hne => absurd hs1 hne⟩
  · have hn : st1.s_thread = some t := by rw [hth1, hj1]
    rw [hwj1]
    by_cases hs2 : state2 = SDL_ThreadState.SDL_THREAD_COMPLETE
    · rw [s_JoinJoinableThread_complete st1 state2 t hn hs2]
      refine ⟨by simp [Event.isWait], rfl, fun _ => rfl, fun t2 _ _ hne => absurd hs2 hne⟩
    · rw [s_JoinJoinableThread_running st1 state2 t hn hs2]
      refine ⟨by simp [Event.isWait], rfl, fun hor => ?_, fun t2 ht2 _ _ => ?_⟩
      · rcases hor with h | h | h
        · rw [h0] at h
          simp at h
        · exact absurd h hs1
        · exact absurd h hs2
      · rw [h0] at ht2
        rw [hn, ht2]
        exact ⟨rfl, rfl⟩

theorem sdl3_two_idle_updates_witness :
    ((NATE_TASK_SDL3_THREAD.update_twice ⟨⟨some [⟨1, 10⟩], 0, 1⟩, some 5, some 6⟩
        SDL_ThreadState.SDL_THREAD_ALIVE none SDL_ThreadState.SDL_THREAD_COMPLETE
        none).trace.filter Event.isWait).length ≤ 1 ∧
      (NATE_TASK_SDL3_THREAD.update_twice ⟨⟨some [⟨1, 10⟩], 0, 1⟩, some 5, some 6⟩
        SDL_ThreadState.SDL_THREAD_ALIVE none SDL_ThreadState.SDL_THREAD_COMPLETE
        none).st.s_thread = none :=
  ⟨(sdl3_two_idle_updates ⟨⟨some [⟨1, 10⟩], 0, 1⟩, some 5, some 6⟩
      SDL_ThreadState.SDL_THREAD_ALIVE none SDL_ThreadState.SDL_THREAD_COMPLETE none rfl).1,
    (sdl3_two_idle_updates ⟨⟨some [⟨1, 10⟩], 0, 1⟩, some 5, some 6⟩
      SDL_ThreadState.SDL_THREAD_ALIVE none SDL_ThreadState.SDL_THREAD_COMPLETE none
      rfl).2.2.1 (Or.inr (Or.inr rfl))⟩

/-- C14, counterexample. The queue is empty and the worker, handle 6, is still running its
last task: SDL reports it alive at both polls. After the two calls of `nate_Task_Update` the
handle is still 6, not absent; the calls only locked, asked for the thread state and
unlocked. -/
theorem sdl3_two_idle_updates_keep_running_handle :
    NATE_TASK_SDL3_THREAD.update_twice ⟨ArrayBuffer0, some 5, some 6⟩
        SDL_ThreadState.SDL_THREAD_ALIVE none SDL_ThreadState.SDL_THREAD_ALIVE none =
      ⟨(), ⟨ArrayBuffer0, some 5, some 6⟩,
        [Event.SDL_LockMutex (some 5),
          Event.SDL_GetThreadState 6 SDL_ThreadState.SDL_THREAD_ALIVE,
          Event.SDL_UnlockMutex (some 5),
          Event.SDL_LockMutex (some 5),
          Event.SDL_GetThreadState 6 SDL_ThreadState.SDL_THREAD_ALIVE,
          Event.SDL_UnlockMutex (some 5)]⟩ ∧
      (NATE_TASK_SDL3_THREAD.update_twice ⟨ArrayBuffer0, some 5, some 6⟩
        SDL_ThreadState.SDL_THREAD_ALIVE none SDL_ThreadState.SDL_THREAD_ALIVE
        none).st.s_thread ≠ none := by
  decide

/-! ### Spawn failure and `nate_Task_Deinit` (C15, C16, C18) -/

/-- C15, the code at the failing input. The runner is initialised (`s_mutex` is the lock 5),
one task is pending and there is no worker; `SDL_CreateThread` fails. `nate_Task_Update`
then runs `s_CleanMutex()` inside `s_EnsureRunningThread`: the lock is destroyed while it is
held and `s_mutex` is `NULL` afterwards (the final unlock gets `NULL`). The queue is
unchanged and `s_thread` is `NULL`. A later `nate_Task_Add` locks and unlocks `NULL`, and a
later `nate_Task_Update` whose `SDL_CreateThread` succeeds starts a worker while `s_mutex`
is still `NULL`. -/
theorem sdl3_spawn_failure_destroys_lock :
    NATE_TASK_SDL3_THREAD.nate_Task_Update ⟨⟨some [⟨1, 10⟩, ⟨0, 0⟩], 1, 2⟩, some 5, none⟩
        SDL_ThreadState.SDL_THREAD_ALIVE none =
      ⟨(), ⟨⟨some [⟨1, 10⟩, ⟨0, 0⟩], 1, 2⟩, none, none⟩,
        [Event.SDL_LockMutex (some 5), Event.SDL_CreateThread none, Event.SDL_LogError,
          Event.SDL_DestroyMutex 5, Event.SDL_UnlockMutex none]⟩ ∧
      NATE_TASK_SDL3_THREAD.nate_Task_Add ⟨⟨some [⟨1, 10⟩, ⟨0, 0⟩], 1, 2⟩, none, none⟩
          2 20 none =
        some ⟨true, ⟨⟨some [⟨1, 10⟩, ⟨2, 20⟩], 2, 2⟩, none, none⟩,
          [Event.SDL_LockMutex none, Event.SDL_UnlockMutex none]⟩ ∧
      NATE_TASK_SDL3_THREAD.nate_Task_Update ⟨⟨some [⟨1, 10⟩, ⟨2, 20⟩], 2, 2⟩, none, none⟩
          SDL_ThreadState.SDL_THREAD_ALIVE (some 7) =
        ⟨(), ⟨⟨some [⟨1, 10⟩, ⟨2, 20⟩], 2, 2⟩, none, some 7⟩,
          [Event.SDL_LockMutex none, Event.SDL_CreateThread (some 7),
            Event.SDL_UnlockMutex none]⟩ := by
  decide

/-- C16, as amended. `nate_Task_Deinit` leaves `s_Tasks` exactly as it was, in both builds:
without threads it does nothing at all; in the threaded build it leaves `s_mutex` and
`s_thread` `NULL` and does not touch the store. -/
theorem deinit_keeps_store (s : ArrayBuffer nate_OneTask)
    (st : NATE_TASK_SDL3_THREAD.Runner) :
    NATE_TASK_NO_THREAD.nate_Task_Deinit s = ⟨(), s, []⟩ ∧
      (NATE_TASK_SDL3_THREAD.nate_Task_Deinit st).st = ⟨st.s_Tasks, none, none⟩ ∧
      Event.free ∉ (NATE_TASK_SDL3_THREAD.nate_Task_Deinit st).trace := by
  refine ⟨rfl, ?_, ?_⟩
  · unfold NATE_TASK_SDL3_THREAD.nate_Task_Deinit NATE_TASK_SDL3_THREAD.s_CleanThread
      NATE_TASK_SDL3_THREAD.s_CleanMutex
    cases st with
    | mk tasks m t => cases m <;> cases t <;> rfl
  · unfold NATE_TASK_SDL3_THREAD.nate_Task_Deinit NATE_TASK_SDL3_THREAD.s_CleanThread
      NATE_TASK_SDL3_THREAD.s_CleanMutex
    cases st with
    | mk tasks m t => cases m <;> cases t <;> simp

/-- C16, counterexample. A store with a block of two cells and one pending task is still
there after `nate_Task_Deinit`, in the build without threads and in the threaded build: the
store is not released. -/
theorem deinit_does_not_release_store :
    (NATE_TASK_NO_THREAD.nate_Task_Deinit ⟨some [⟨1, 10⟩, ⟨0, 0⟩], 1, 2⟩).st =
        ⟨some [⟨1, 10⟩, ⟨0, 0⟩], 1, 2⟩ ∧
      (NATE_TASK_SDL3_THREAD.nate_Task_Deinit
        ⟨⟨some [⟨1, 10⟩, ⟨0, 0⟩], 1, 2⟩, some 5, some 6⟩).st.s_Tasks =
        ⟨some [⟨1, 10⟩, ⟨0, 0⟩], 1, 2⟩ ∧
      (⟨some [⟨1, 10⟩, ⟨0, 0⟩], 1, 2⟩ : ArrayBuffer nate_OneTask) ≠ ⟨none, 0, 0⟩ := by
  decide

/-- C18, the code at the failing input. With the lock 5 and the worker handle 6 both
outstanding, `nate_Task_Deinit` calls `SDL_DestroyMutex` on the lock first and
`SDL_WaitThread` on the worker second: the lock is destroyed while the worker has not been
joined. -/
theorem sdl3_deinit_destroys_lock_first :
    NATE_TASK_SDL3_THREAD.nate_Task_Deinit ⟨ArrayBuffer0, some 5, some 6⟩ =
      ⟨(), ⟨ArrayBuffer0, none, none⟩,
        [Event.SDL_DestroyMutex 5, Event.SDL_WaitThread 6]⟩ := by
  decide


/-! ### The worker loop (C17) -/

theorem calls_append (a b : List Event) : calls (a ++ b) = calls a ++ calls b := by
  unfold calls
  rw [List.filterMap_append]

theorem s_worker_function_loop_holds (q : List nate_OneTask) :
    ∀ (fuel : Nat) (st : NATE_TASK_SDL3_THREAD.Runner) (trace : List Event),
      q.length + 1 ≤ fuel → Holds st.s_Tasks q →
      ∃ r, NATE_TASK_SDL3_THREAD.s_worker_function_loop fuel st trace = some r ∧ r.ret = 0 ∧
        calls r.trace = calls trace ++ q.takeWhile (fun t => decide (t.function ≠ 0)) ∧
        Holds r.st.s_Tasks (q.dropWhile (fun t => decide (t.function ≠ 0))).tail ∧
        r.st.s_mutex = st.s_mutex ∧ r.st.s_thread = st.s_thread := by
  induction q with
  | nil =>
    intro fuel st trace hfuel hq
    obtain ⟨fuel1, rfl⟩ : ∃ k, fuel = k + 1 := ⟨fuel - 1, by omega⟩
    refine ⟨⟨0, ⟨st.s_Tasks, st.s_mutex, st.s_thread⟩,
      trace ++ [Event.SDL_LockMutex st.s_mutex] ++ [] ++ [Event.SDL_UnlockMutex st.s_mutex]⟩,
      ?_, rfl, ?_, hq, rfl, rfl⟩
    · simp [NATE_TASK_SDL3_THREAD.s_worker_function_loop, s_fetch_task_sync_empty _ hq.1]
    · simp [calls_append, calls]
  | cons x q ih =>
    intro fuel st trace hfuel hq
    rw [List.length_cons] at hfuel
    obtain ⟨fuel1, rfl⟩ : ∃ k, fuel = k + 1 := ⟨fuel - 1, by omega⟩
    obtain ⟨st1, hf, _, _, hq1⟩ := s_fetch_task_sync_holds st.s_Tasks x q hq
    by_cases hx : x.function ≠ 0
    · obtain ⟨r, hr, hret, hcalls, hrest, hm, hth⟩ := ih fuel1 ⟨st1, st.s_mutex, st.s_thread⟩
        (trace ++ [Event.SDL_LockMutex st.s_mutex] ++ [] ++ [Event.SDL_UnlockMutex st.s_mutex] ++
          [Event.call x.function x.userdata]) (by omega) hq1
      refine ⟨r, ?_, hret, ?_, ?_, hm, hth⟩
      · simp only [NATE_TASK_SDL3_THREAD.s_worker_function_loop, hf, if_pos hx]
        exact hr
      · rw [hcalls, List.takeWhile_cons_of_pos (by simpa using hx)]
        simp [calls_append, calls]
      · rw [List.dropWhile_cons_of_pos (by simpa using hx)]
        exact hrest
    · refine ⟨⟨0, ⟨st1, st.s_mutex, st.s_thread⟩,
        trace ++ [Event.SDL_LockMutex st.s_mutex] ++ [] ++
          [Event.SDL_UnlockMutex st.s_mutex]⟩, ?_, rfl, ?_, ?_, rfl, rfl⟩
      · simp only [NATE_TASK_SDL3_THREAD.s_worker_function_loop, hf, if_neg hx]
      · rw [List.takeWhile_cons_of_neg (by simpa using hx)]
        simp [calls_append, calls]
      · rw [List.dropWhile_cons_of_neg (by simpa using hx)]
        exact hq1

/-- C17, as amended. The worker loop on its own, on a queue that holds the items `q`, all
with a function that is not `NULL`: `s_worker_function` returns (the fuel of one iteration
more than `size` is enough), with result 0; on exit the queue is empty (`size = 0`); the
actions it has called are exactly the items of `q`, in queue order; `s_mutex` and `s_thread`
are untouched. -/
theorem worker_drains_backlog (st : NATE_TASK_SDL3_THREAD.Runner) (q : List nate_OneTask)
    (hq : Holds st.s_Tasks q) (hnonnull : ∀ t ∈ q, t.function ≠ 0) :
    ∃ r, NATE_TASK_SDL3_THREAD.s_worker_function st = some r ∧ r.ret = 0 ∧
      r.st.s_Tasks.size = 0 ∧ calls r.trace = q ∧
      r.st.s_mutex = st.s_mutex ∧ r.st.s_thread = st.s_thread := by
  obtain ⟨r, hr, hret, hcalls, hrest, hm, hth⟩ := s_worker_function_loop_holds q
    (st.s_Tasks.size + 1) st [] (by rw [hq.1]) hq
  have htake : q.takeWhile (fun t => decide (t.function ≠ 0)) = q := by
    rw [List.takeWhile_eq_self_iff]
    intro t ht
    simpa using hnonnull t ht
  have hdrop : q.dropWhile (fun t => decide (t.function ≠ 0)) = [] := by
    rw [List.dropWhile_eq_nil_iff]
    intro t ht
    simpa using hnonnull t ht
  rw [hdrop] at hrest
  rw [htake] at hcalls
  exact ⟨r, hr, hret, hrest.1, by simpa [calls] using hcalls, hm, hth⟩

theorem worker_drains_backlog_witness :
    ∃ r, NATE_TASK_SDL3_THREAD.s_worker_function
        ⟨⟨some [⟨1, 10⟩, ⟨2, 20⟩, ⟨3, 30⟩, ⟨7, 7⟩], 3, 4⟩, some 5, some 6⟩ = some r ∧
      r.ret = 0 ∧ r.st.s_Tasks.size = 0 ∧ calls r.trace = [⟨1, 10⟩, ⟨2, 20⟩, ⟨3, 30⟩] ∧
      r.st.s_mutex = some 5 ∧ r.st.s_thread = some 6 :=
  worker_drains_backlog ⟨⟨some [⟨1, 10⟩, ⟨2, 20⟩, ⟨3, 30⟩, ⟨7, 7⟩], 3, 4⟩, some 5, some 6⟩
    [⟨1, 10⟩, ⟨2, 20⟩, ⟨3, 30⟩] ⟨rfl, rfl, by simp⟩ (by decide)

/-- C17, counterexample. The queue holds the two items `(0, 5)` and `(7, 8)`, the first one
with a `NULL` function. The worker loop fetches the first item, calls nothing and stops at
`while (curr_task.function)`: on exit `size` is 1, the item `(7, 8)` is still pending and no
action has been called. -/
theorem worker_stops_at_null_function :
    NATE_TASK_SDL3_THREAD.s_worker_function
        ⟨⟨some [⟨0, 5⟩, ⟨7, 8⟩], 2, 2⟩, some 5, some 6⟩ =
      some ⟨0, ⟨⟨some [⟨7, 8⟩, ⟨7, 8⟩], 1, 2⟩, some 5, some 6⟩,
        [Event.SDL_LockMutex (some 5), Event.SDL_UnlockMutex (some 5)]⟩ ∧
      (⟨⟨some [⟨7, 8⟩, ⟨7, 8⟩], 1, 2⟩, some 5, some 6⟩ :
        NATE_TASK_SDL3_THREAD.Runner).s_Tasks.size ≠ 0 := by
  decide


/-! ### What the operations keep of the store -/

theorem s_fetch_task_sync_data (s : ArrayBuffer nate_OneTask)
    (r : Ret nate_OneTask (ArrayBuffer nate_OneTask)) (h : s_fetch_task_sync s = some r) :
    (r.st.data ≠ none ↔ s.data ≠ none) := by
  unfold s_fetch_task_sync at h
  by_cases hpos : s.size > 0
  · rw [if_pos hpos] at h
    cases hd : s.data with
    | none => rw [hd] at h; simp at h
    | some cells =>
      rw [hd] at h
      dsimp only at h
      cases h0 : cells[0]? with
      | none => rw [h0] at h; simp at h
      | some res =>
        rw [h0] at h
        dsimp only at h
        cases hl : s_fetch_task_sync_loop cells 0 (s.size - 1) with
        | none => rw [hl] at h; simp at h
        | some cells1 =>
          rw [hl] at h
          simp only [Option.some.injEq] at h
          rw [← h]
          simp
  · rw [if_neg hpos, Option.some.injEq] at h
    rw [← h]

theorem s_add_task_sync_fields (s : ArrayBuffer nate_OneTask) (function userdata : Nat)
    (heap : Option (Nat → nate_OneTask)) (r : Ret Bool (ArrayBuffer nate_OneTask))
    (h : s_add_task_sync s function userdata heap = some r) :
    r.st = s ∨
      (r.st.data ≠ none ∧ r.st.size = (s.size + 1) % 2 ^ 64 ∧
        ((s.data ≠ none ∧ r.st.allocated = s.allocated ∧
            (s.size < s.allocated ∨ s_add_task_sync_new_size s.size ≤ s.allocated)) ∨
          (s.allocated ≤ s.size ∧ s.allocated < s_add_task_sync_new_size s.size ∧
            r.st.allocated = s_add_task_sync_new_size s.size))) := by
  unfold s_add_task_sync at h
  by_cases hg : s.size ≥ s.allocated
  · rw [if_pos hg] at h
    rcases nate_ArrayBuffer_Alloc_cases s sizeof_nate_OneTask
      (s_add_task_sync_new_size s.size) heap with ⟨hle, ha⟩ | ⟨_, _, ha⟩ | ⟨hlt, fresh, _, ha⟩
    · rw [ha] at h
      simp only [Nat.one_ne_zero, if_false, Option.getD_some] at h
      obtain ⟨cells, hd, _, hr⟩ := s_add_task_sync_store_some _ _ _ _ _ h
      right
      rw [hr]
      dsimp only
      exact ⟨Option.some_ne_none _, rfl, Or.inl ⟨by rw [hd]; exact Option.some_ne_none _, rfl,
        Or.inr hle⟩⟩
    · rw [ha] at h
      simp only [if_true, Option.some.injEq, Option.getD_some] at h
      left
      rw [← h]
    · rw [ha] at h
      simp only [Nat.one_ne_zero, if_false, Option.getD_some] at h
      obtain ⟨cells, _, _, hr⟩ := s_add_task_sync_store_some _ _ _ _ _ h
      dsimp only at hr
      right
      rw [hr]
      dsimp only
      exact ⟨Option.some_ne_none _, rfl, Or.inr ⟨hg, hlt, rfl⟩⟩
  · rw [if_neg hg] at h
    obtain ⟨cells, hd, _, hr⟩ := s_add_task_sync_store_some _ _ _ _ _ h
    right
    rw [hr]
    dsimp only
    exact ⟨Option.some_ne_none _, rfl, Or.inl ⟨by rw [hd]; exact Option.some_ne_none _, rfl,
      Or.inl (by omega)⟩⟩

/-- Every state of the task store that the operations produce from `ArrayBuffer0` has a
block exactly when `allocated > 0`. -/
theorem storeReachable_dataIffAllocated (b : ArrayBuffer nate_OneTask)
    (h : StoreReachable b) : DataIffAllocated b := by
  induction h with
  | empty => exact ⟨fun h => absurd rfl h, fun h => absurd h (Nat.lt_irrefl 0)⟩
  | @alloc b b1 elem_size size heap _ ha ih =>
    rcases nate_ArrayBuffer_Alloc_cases b elem_size size heap with
      ⟨_, hc⟩ | ⟨_, _, hc⟩ | ⟨hlt, fresh, _, hc⟩
    · rw [hc, Option.some.injEq] at ha
      rw [← ha]; exact ih
    · rw [hc, Option.some.injEq] at ha
      rw [← ha]; exact ih
    · rw [hc, Option.some.injEq] at ha
      rw [← ha]
      exact ⟨fun _ => by dsimp only; omega, fun _ => Option.some_ne_none _⟩
  | @free b b1 _ hf ih =>
    cases hd : b.data with
    | none =>
      rw [nate_ArrayBuffer_Free_null b hd, Option.some.injEq] at hf
      rw [← hf]; exact ih
    | some cells =>
      rw [nate_ArrayBuffer_Free_data b cells hd, Option.some.injEq] at hf
      rw [← hf]
      exact ⟨fun h => absurd rfl h, fun h => absurd h (Nat.lt_irrefl 0)⟩
  | @enqueue s r function userdata heap _ hadd ih =>
    rcases s_add_task_sync_fields s function userdata heap r hadd with
      h | ⟨hd, _, ⟨hsd, hal, _⟩ | ⟨_, hlt, hal⟩⟩
    · rw [h]; exact ih
    · exact ⟨fun _ => by rw [hal]; exact ih.mp hsd, fun _ => hd⟩
    · exact ⟨fun _ => by rw [hal]; omega, fun _ => hd⟩
  | @dequeue s r _ hf ih =>
    have hal := (s_fetch_task_sync_allocated s r hf).1
    have hd := s_fetch_task_sync_data s r hf
    unfold DataIffAllocated at ih ⊢
    rw [hal, hd]
    exact ih

/-- The store invariant holds for `ArrayBuffer0` and is kept by `nate_ArrayBuffer_Alloc`, by
`nate_ArrayBuffer_Free`, by `s_fetch_task_sync`, and by `s_add_task_sync` on every call that
either has room (`size < allocated`) or computes a growth target above `size`, which is the
case for every `size < 2^30`. -/
theorem storeInvariant_kept (b : ArrayBuffer nate_OneTask) (elem_size size : Nat)
    (heap : Option (Nat → nate_OneTask)) (function userdata : Nat) (h : StoreInvariant b) :
    StoreInvariant (ArrayBuffer0 : ArrayBuffer nate_OneTask) ∧
    (∀ b1, (nate_ArrayBuffer_Alloc (some b) elem_size size heap).st = some b1 →
      StoreInvariant b1) ∧
    (∀ b1, (nate_ArrayBuffer_Free (some b)).st = some b1 → StoreInvariant b1) ∧
    (∀ r, s_fetch_task_sync b = some r → StoreInvariant r.st) ∧
    (∀ r, s_add_task_sync b function userdata heap = some r →
      (b.size < b.allocated ∨ b.size < s_add_task_sync_new_size b.size) →
      StoreInvariant r.st) ∧
    (b.size < 2 ^ 30 → b.size < s_add_task_sync_new_size b.size) := by
  obtain ⟨hle, hdata⟩ := h
  refine ⟨⟨Nat.le_refl _, fun h => absurd h (Nat.lt_irrefl 0)⟩, ?_, ?_, ?_, ?_, ?_⟩
  · intro b1 ha
    rcases nate_ArrayBuffer_Alloc_cases b elem_size size heap with
      ⟨_, hc⟩ | ⟨_, _, hc⟩ | ⟨hlt, fresh, _, hc⟩
    · rw [hc, Option.some.injEq] at ha
      rw [← ha]; exact ⟨hle, hdata⟩
    · rw [hc, Option.some.injEq] at ha
      rw [← ha]; exact ⟨hle, hdata⟩
    · rw [hc, Option.some.injEq] at ha
      rw [← ha]
      exact ⟨by dsimp only; omega, fun _ => Option.some_ne_none _⟩
  · intro b1 hf
    cases hd : b.data with
    | none =>
      rw [nate_ArrayBuffer_Free_null b hd, Option.some.injEq] at hf
      rw [← hf]; exact ⟨hle, hdata⟩
    | some cells =>
      rw [nate_ArrayBuffer_Free_data b cells hd, Option.some.injEq] at hf
      rw [← hf]
      exact ⟨Nat.le_refl _, fun h => absurd h (Nat.lt_irrefl 0)⟩
  · intro r hf
    have hal := (s_fetch_task_sync_allocated b r hf).1
    have hsz := s_fetch_task_sync_size b r hf
    have hd := s_fetch_task_sync_data b r hf
    exact ⟨by rw [hal, hsz]; omega, fun hpos => hd.mpr (hdata (by rw [← hal]; exact hpos))⟩
  · intro r hadd hroom
    rcases s_add_task_sync_fields b function userdata heap r hadd with
      h | ⟨hd, hsz, ⟨_, hal, hcase⟩ | ⟨_, hlt, hal⟩⟩
    · rw [h]; exact ⟨hle, hdata⟩
    · refine ⟨?_, fun _ => hd⟩
      rw [hsz, hal]
      have hmod : (b.size + 1) % 2 ^ 64 ≤ b.size + 1 := Nat.mod_le _ _
      rcases hcase with h1 | h1
      · omega
      · rcases hroom with h2 | h2 <;> omega
    · refine ⟨?_, fun _ => hd⟩
      rw [hsz, hal]
      have hmod : (b.size + 1) % 2 ^ 64 ≤ b.size + 1 := Nat.mod_le _ _
      rcases hroom with h2 | h2 <;> omega
  · intro hsmall
    rw [s_add_task_sync_new_size_small b.size hsmall]
    split <;> omega

/-! ### The idle poll on the states the store can be in (C13) -/

theorem queueReachable_storeReachable (s : ArrayBuffer nate_OneTask)
    (h : QueueReachable s) : StoreReachable s := by
  induction h with
  | empty => exact StoreReachable.empty
  | @enqueue s r function userdata heap _ hadd ih =>
    exact StoreReachable.enqueue function userdata heap ih hadd
  | @dequeue s r _ hf ih => exact StoreReachable.dequeue ih hf
  | @release s s1 _ hf ih => exact StoreReachable.free ih hf

/-- C13. The idle poll. On every runner state whose queue is empty (`size = 0`), the store
being in a state that the buffer and queue operations produce from `ArrayBuffer0` (every
state that the task queue produces is one, `queueReachable_storeReachable`),
`nate_Task_Update` leaves `s_Tasks` all zero (`data = NULL`, `allocated = 0`, `size = 0`),
keeps `s_mutex`, never calls `SDL_CreateThread`, and treats the handle so: a handle whose
thread is reported complete is waited for exactly once and set to `NULL`; a handle whose
thread is not complete is left in place with no wait; no handle stays no handle with no
wait. -/
theorem sdl3_idle_update (st : NATE_TASK_SDL3_THREAD.Runner) (state : SDL_ThreadState)
    (created : Option Nat) (hsize : st.s_Tasks.size = 0)
    (hreach : StoreReachable st.s_Tasks) :
    (NATE_TASK_SDL3_THREAD.nate_Task_Update st state created).st.s_Tasks = ⟨none, 0, 0⟩ ∧
    (NATE_TASK_SDL3_THREAD.nate_Task_Update st state created).st.s_mutex = st.s_mutex ∧
    (NATE_TASK_SDL3_THREAD.nate_Task_Update st state created).trace.filter
      Event.isCreateThread = [] ∧
    (∀ t, st.s_thread = some t → state = SDL_ThreadState.SDL_THREAD_COMPLETE →
      (NATE_TASK_SDL3_THREAD.nate_Task_Update st state created).st.s_thread = none ∧
      (NATE_TASK_SDL3_THREAD.nate_Task_Update st state created).trace.filter Event.isWait =
        [Event.SDL_WaitThread t]) ∧
    (∀ t, st.s_thread = some t → state ≠ SDL_ThreadState.SDL_THREAD_COMPLETE →
      (NATE_TASK_SDL3_THREAD.nate_Task_Update st state created).st.s_thread = some t ∧
      (NATE_TASK_SDL3_THREAD.nate_Task_Update st state created).trace.filter Event.isWait =
        []) ∧
    (st.s_thread = none →
      (NATE_TASK_SDL3_THREAD.nate_Task_Update st state created).st.s_thread = none ∧
      (NATE_TASK_SDL3_THREAD.nate_Task_Update st state created).trace.filter Event.isWait =
        []) := by
  have hwf := storeReachable_dataIffAllocated st.s_Tasks hreach
  obtain ⟨_, hth, hm⟩ := sdl3_update_empty_size st state created hsize
  obtain ⟨hw, hc⟩ := sdl3_update_empty_filter st state created hsize
  refine ⟨sdl3_update_empty_store st state created hsize hwf, hm, hc, ?_, ?_, ?_⟩
  · intro t ht hs
    rw [hth, hw, s_JoinJoinableThread_complete st state t ht hs]
    exact ⟨rfl, rfl⟩
  · intro t ht hs
    rw [hth, hw, s_JoinJoinableThread_running st state t ht hs]
    exact ⟨ht, rfl⟩
  · intro ht
    rw [hth, hw, s_JoinJoinableThread_none st state ht]
    exact ⟨ht, rfl⟩

theorem sdl3_idle_update_witness :
    (NATE_TASK_SDL3_THREAD.nate_Task_Update
        ⟨⟨some [⟨4, 5⟩, ⟨0, 0⟩, ⟨0, 0⟩, ⟨0, 0⟩, ⟨0, 0⟩, ⟨0, 0⟩, ⟨0, 0⟩, ⟨0, 0⟩], 0, 8⟩,
          some 5, some 6⟩
        SDL_ThreadState.SDL_THREAD_COMPLETE none).st.s_Tasks = ⟨none, 0, 0⟩ ∧
      ((NATE_TASK_SDL3_THREAD.nate_Task_Update
          ⟨⟨some [⟨4, 5⟩, ⟨0, 0⟩, ⟨0, 0⟩, ⟨0, 0⟩, ⟨0, 0⟩, ⟨0, 0⟩, ⟨0, 0⟩, ⟨0, 0⟩], 0, 8⟩,
            some 5, some 6⟩
          SDL_ThreadState.SDL_THREAD_COMPLETE none).st.s_thread = none ∧
        (NATE_TASK_SDL3_THREAD.nate_Task_Update
          ⟨⟨some [⟨4, 5⟩, ⟨0, 0⟩, ⟨0, 0⟩, ⟨0, 0⟩, ⟨0, 0⟩, ⟨0, 0⟩, ⟨0, 0⟩, ⟨0, 0⟩], 0, 8⟩,
            some 5, some 6⟩
          SDL_ThreadState.SDL_THREAD_COMPLETE none).trace.filter Event.isWait =
          [Event.SDL_WaitThread 6]) := by
  have hreach : StoreReachable
      ⟨some [⟨4, 5⟩, ⟨0, 0⟩, ⟨0, 0⟩, ⟨0, 0⟩, ⟨0, 0⟩, ⟨0, 0⟩, ⟨0, 0⟩, ⟨0, 0⟩], 0, 8⟩ :=
    StoreReachable.dequeue
      (r := ⟨⟨4, 5⟩,
        ⟨some [⟨4, 5⟩, ⟨0, 0⟩, ⟨0, 0⟩, ⟨0, 0⟩, ⟨0, 0⟩, ⟨0, 0⟩, ⟨0, 0⟩, ⟨0, 0⟩], 0, 8⟩, []⟩)
      (StoreReachable.enqueue
        (r := ⟨true,
          ⟨some [⟨4, 5⟩, ⟨0, 0⟩, ⟨0, 0⟩, ⟨0, 0⟩, ⟨0, 0⟩, ⟨0, 0⟩, ⟨0, 0⟩, ⟨0, 0⟩], 1, 8⟩,
          [Event.realloc 128 true]⟩)
        4 5 (some (fun _ => ⟨0, 0⟩)) StoreReachable.empty (by decide))
      (by decide)
  exact ⟨(sdl3_idle_update _ SDL_ThreadState.SDL_THREAD_COMPLETE none rfl hreach).1,
    (sdl3_idle_update _ SDL_ThreadState.SDL_THREAD_COMPLETE none rfl hreach).2.2.2.1 6 rfl
      rfl⟩


/-! ### The store invariant and the bounds of the enqueue write (C19, C20) -/

theorem s_fetch_task_sync_loop_length (k : Nat) :
    ∀ (cells cells1 : List nate_OneTask) (i : Nat),
      s_fetch_task_sync_loop cells i k = some cells1 → cells1.length = cells.length := by
  induction k with
  | zero =>
    intro cells cells1 i h
    simp only [s_fetch_task_sync_loop, Option.some.injEq] at h
    rw [← h]
  | succ k ih =>
    intro cells cells1 i h
    unfold s_fetch_task_sync_loop at h
    cases hn : cells[i + 1]? with
    | none => rw [hn] at h; simp at h
    | some next =>
      rw [hn] at h
      dsimp only at h
      by_cases hi : i < cells.length
      · rw [if_pos hi] at h
        rw [ih _ _ _ h, List.length_set]
      · rw [if_neg hi] at h
        simp at h

theorem s_fetch_task_sync_length (s : ArrayBuffer nate_OneTask)
    (r : Ret nate_OneTask (ArrayBuffer nate_OneTask)) (h : s_fetch_task_sync s = some r) :
    (r.st.data.getD []).length = (s.data.getD []).length := by
  unfold s_fetch_task_sync at h
  by_cases hpos : s.size > 0
  · rw [if_pos hpos] at h
    cases hd : s.data with
    | none => rw [hd] at h; simp at h
    | some cells =>
      rw [hd] at h
      dsimp only at h
      cases h0 : cells[0]? with
      | none => rw [h0] at h; simp at h
      | some res =>
        rw [h0] at h
        dsimp only at h
        cases hl : s_fetch_task_sync_loop cells 0 (s.size - 1) with
        | none => rw [hl] at h; simp at h
        | some cells1 =>
          rw [hl] at h
          simp only [Option.some.injEq] at h
          rw [← h]
          dsimp only
          rw [Option.getD_some, Option.getD_some]
          exact s_fetch_task_sync_loop_length _ _ _ _ hl
  · rw [if_neg hpos, Option.some.injEq] at h
    rw [← h]


theorem s_add_task_sync_new_size_two_pow_30 :
    s_add_task_sync_new_size (2 ^ 30) = 2 ^ 64 - 2 ^ 31 := by
  decide

theorem queueShape_target (s : ArrayBuffer nate_OneTask) (h : QueueShape s)
    (hg : s.allocated ≤ s.size) :
    s.size < s_add_task_sync_new_size s.size ∧
      ((∃ j, j ≤ 27 ∧ s_add_task_sync_new_size s.size = 8 * 2 ^ j) ∨
        s_add_task_sync_new_size s.size = 2 ^ 64 - 2 ^ 31) := by
  obtain ⟨hle, hlen, hbound, _, hcap⟩ := h
  have heq : s.size = s.allocated := by omega
  rcases hcap with h0 | ⟨j, hj, hjeq⟩ | hbig
  · have hs0 : s.size = 0 := by omega
    rw [hs0, s_add_task_sync_new_size_small 0 (by norm_num)]
    exact ⟨by norm_num, Or.inl ⟨0, by norm_num, by norm_num⟩⟩
  · by_cases h27 : j = 27
    · have hsz : s.size = 2 ^ 30 := by rw [heq, hjeq, h27]; norm_num
      rw [hsz, s_add_task_sync_new_size_two_pow_30]
      exact ⟨by norm_num, Or.inr rfl⟩
    · have hj26 : j ≤ 26 := by omega
      have hp : 2 ^ j ≤ 2 ^ 26 := Nat.pow_le_pow_right (by norm_num) hj26
      have hpos : 0 < 2 ^ j := Nat.two_pow_pos j
      have h26 : (2 : Nat) ^ 26 = 67108864 := by norm_num
      have hsmall : s.size < 2 ^ 30 := by
        have : (2 : Nat) ^ 30 = 1073741824 := by norm_num
        omega
      have hne : s.size ≠ 0 := by omega
      rw [s_add_task_sync_new_size_small s.size hsmall, if_neg hne]
      refine ⟨by omega, Or.inl ⟨j + 1, by omega, ?_⟩⟩
      rw [pow_succ]
      omega
  · exfalso
    have h1 : (2 : Nat) ^ 60 = 1152921504606846976 := by norm_num
    have h2 : (2 : Nat) ^ 64 - 2 ^ 31 = 18446744071562067968 := by norm_num
    omega

theorem queueShape_add (s : ArrayBuffer nate_OneTask) (function userdata : Nat)
    (heap : Option (Nat → nate_OneTask)) (r : Ret Bool (ArrayBuffer nate_OneTask))
    (h : QueueShape s) (hadd : s_add_task_sync s function userdata heap = some r) :
    QueueShape r.st ∧
      (r.ret = true → s.size < r.st.allocated ∧ s.size < (r.st.data.getD []).length) := by
  have hshape := h
  obtain ⟨hle, hlen, hbound, hdata, hcap⟩ := h
  have hmod : (s.size + 1) % 2 ^ 64 = s.size + 1 := by
    have h1 : (2 : Nat) ^ 60 = 1152921504606846976 := by norm_num
    exact Nat.mod_eq_of_lt (by omega)
  unfold s_add_task_sync at hadd
  by_cases hg : s.size ≥ s.allocated
  · rw [if_pos hg] at hadd
    obtain ⟨htarget, hform⟩ := queueShape_target s hshape hg
    generalize s_add_task_sync_new_size s.size = ns at *
    rcases nate_ArrayBuffer_Alloc_cases s sizeof_nate_OneTask ns heap with
      ⟨h1, _⟩ | ⟨_, _, ha⟩ | ⟨hlt, fresh, _, ha⟩
    · omega
    · rw [ha] at hadd
      simp only [if_true, Option.some.injEq, Option.getD_some] at hadd
      rw [← hadd]
      exact ⟨hshape, fun hf => by simp at hf⟩
    · generalize hb : sizeof_nate_OneTask * ns % 2 ^ 64 = bytes at ha
      have hbytes : bytes < 2 ^ 64 := by rw [← hb]; exact Nat.mod_lt _ (by norm_num)
      rw [ha] at hadd
      simp only [Nat.one_ne_zero, if_false, Option.getD_some] at hadd
      generalize hc : (List.range (bytes / sizeof_nate_OneTask)).map
        (fun i => (s.data.getD []).getD i (fresh i)) = cells1 at hadd
      have hl1 : cells1.length < 2 ^ 60 := by
        rw [← hc, List.length_map, List.length_range]
        unfold sizeof_nate_OneTask
        omega
      obtain ⟨cells, hd, hin, hr⟩ := s_add_task_sync_store_some _ _ _ _ _ hadd
      dsimp only at hd hin hr
      rw [Option.some.injEq] at hd
      subst hd
      rw [hmod] at hr
      rw [hr]
      unfold QueueShape
      dsimp only
      rw [Option.getD_some, List.length_set]
      refine ⟨⟨by omega, by omega, hl1, fun _ => Option.some_ne_none _, ?_⟩,
        fun _ => ⟨htarget, hin⟩⟩
      rcases hform with hj | hbig
      · exact Or.inr (Or.inl hj)
      · exact Or.inr (Or.inr hbig)
  · rw [if_neg hg] at hadd
    obtain ⟨cells, hd, hin, hr⟩ := s_add_task_sync_store_some _ _ _ _ _ hadd
    rw [hmod] at hr
    rw [hd, Option.getD_some] at hlen hbound
    rw [hr]
    unfold QueueShape
    dsimp only
    rw [Option.getD_some, List.length_set]
    exact ⟨⟨by omega, by omega, hbound, fun _ => Option.some_ne_none _, hcap⟩,
      fun _ => ⟨by omega, hin⟩⟩

theorem queueShape_fetch (s : ArrayBuffer nate_OneTask)
    (r : Ret nate_OneTask (ArrayBuffer nate_OneTask))
    (h : QueueShape s) (hf : s_fetch_task_sync s = some r) : QueueShape r.st := by
  obtain ⟨hle, hlen, hbound, hdata, hcap⟩ := h
  have hal := (s_fetch_task_sync_allocated s r hf).1
  have hsz := s_fetch_task_sync_size s r hf
  have hd := s_fetch_task_sync_data s r hf
  have hl := s_fetch_task_sync_length s r hf
  refine ⟨by omega, by omega, by omega, fun hpos => hd.mpr (hdata (by omega)), ?_⟩
  rw [hal]
  exact hcap

theorem queueShape_free (s s1 : ArrayBuffer nate_OneTask) (h : QueueShape s)
    (hf : (nate_ArrayBuffer_Free (some s)).st = some s1) : QueueShape s1 := by
  cases hd : s.data with
  | none =>
    rw [nate_ArrayBuffer_Free_null s hd, Option.some.injEq] at hf
    rw [← hf]
    exact h
  | some cells =>
    rw [nate_ArrayBuffer_Free_data s cells hd, Option.some.injEq] at hf
    rw [← hf]
    exact ⟨Nat.le_refl _, Nat.le_refl _, by simp, fun hp => absurd hp (Nat.lt_irrefl 0),
      Or.inl rfl⟩

theorem queueReachable_shape (s : ArrayBuffer nate_OneTask) (h : QueueReachable s) :
    QueueShape s := by
  induction h with
  | empty =>
    exact ⟨Nat.le_refl _, Nat.le_refl _, by simp [ArrayBuffer0],
      fun hp => absurd hp (Nat.lt_irrefl 0), Or.inl rfl⟩
  | @enqueue s r function userdata heap _ hadd ih =>
    exact (queueShape_add s function userdata heap r ih hadd).1
  | @dequeue s r _ hf ih => exact queueShape_fetch s r ih hf
  | @release s s1 _ hf ih => exact queueShape_free s s1 ih hf

theorem queueShape_storeInvariant (s : ArrayBuffer nate_OneTask) (h : QueueShape s) :
    StoreInvariant s :=
  ⟨h.1, h.2.2.2.1⟩


/-- C19. The store invariant (`size ≤ allocated`, and `data` not `NULL` whenever
`allocated > 0`) holds for `ArrayBuffer0` and for every state `b` of `s_Tasks` that the task
queue produces, and every operation on such a state leaves a state that satisfies it again:
`nate_ArrayBuffer_Alloc` with any element size, target and allocator answer (success or
failure; a call that reaches `realloc` asks for at least one byte, as every call of the
queue does), `nate_ArrayBuffer_Free`, `s_add_task_sync` (true or false) and
`s_fetch_task_sync`. -/
theorem store_invariant_preserved (b : ArrayBuffer nate_OneTask) (h : QueueReachable b) :
    StoreInvariant (ArrayBuffer0 : ArrayBuffer nate_OneTask) ∧ StoreInvariant b ∧
    (∀ elem_size size heap, (size ≤ b.allocated ∨ (elem_size * size) % 2 ^ 64 ≠ 0) →
      ∃ b1, (nate_ArrayBuffer_Alloc (some b) elem_size size heap).st = some b1 ∧
        StoreInvariant b1) ∧
    (∃ b1, (nate_ArrayBuffer_Free (some b)).st = some b1 ∧ StoreInvariant b1) ∧
    (∀ function userdata heap r, s_add_task_sync b function userdata heap = some r →
      StoreInvariant r.st) ∧
    (∀ r, s_fetch_task_sync b = some r → StoreInvariant r.st) := by
  have hshape := queueReachable_shape b h
  have hinv := queueShape_storeInvariant b hshape
  refine ⟨(storeInvariant_kept b 0 0 none 0 0 hinv).1, hinv, ?_, ?_, ?_, ?_⟩
  · intro elem_size size heap _
    obtain ⟨b1, hb1, _⟩ := nate_ArrayBuffer_Alloc_allocated b elem_size size heap
    exact ⟨b1, hb1, (storeInvariant_kept b elem_size size heap 0 0 hinv).2.1 b1 hb1⟩
  · obtain ⟨b1, hb1, _⟩ := nate_ArrayBuffer_Free_allocated b
    exact ⟨b1, hb1, queueShape_storeInvariant b1 (queueShape_free b b1 hshape hb1)⟩
  · intro function userdata heap r hadd
    exact queueShape_storeInvariant r.st (queueShape_add b function userdata heap r hshape hadd).1
  · intro r hf
    exact queueShape_storeInvariant r.st (queueShape_fetch b r hshape hf)

theorem store_invariant_preserved_witness :
    StoreInvariant
        (⟨some [⟨4, 5⟩, ⟨0, 0⟩, ⟨0, 0⟩, ⟨0, 0⟩, ⟨0, 0⟩, ⟨0, 0⟩, ⟨0, 0⟩, ⟨0, 0⟩], 1, 8⟩ :
          ArrayBuffer nate_OneTask) ∧
      StoreInvariant
        (⟨some [⟨4, 5⟩, ⟨6, 7⟩, ⟨0, 0⟩, ⟨0, 0⟩, ⟨0, 0⟩, ⟨0, 0⟩, ⟨0, 0⟩, ⟨0, 0⟩], 2, 8⟩ :
          ArrayBuffer nate_OneTask) := by
  have hreach : QueueReachable
      ⟨some [⟨4, 5⟩, ⟨0, 0⟩, ⟨0, 0⟩, ⟨0, 0⟩, ⟨0, 0⟩, ⟨0, 0⟩, ⟨0, 0⟩, ⟨0, 0⟩], 1, 8⟩ :=
    QueueReachable.enqueue
      (r := ⟨true,
        ⟨some [⟨4, 5⟩, ⟨0, 0⟩, ⟨0, 0⟩, ⟨0, 0⟩, ⟨0, 0⟩, ⟨0, 0⟩, ⟨0, 0⟩, ⟨0, 0⟩], 1, 8⟩,
        [Event.realloc 128 true]⟩)
      4 5 (some (fun _ => ⟨0, 0⟩)) QueueReachable.empty (by decide)
  exact ⟨(store_invariant_preserved _ hreach).2.1,
    (store_invariant_preserved _ hreach).2.2.2.2.1 6 7 none
      ⟨true,
        ⟨some [⟨4, 5⟩, ⟨6, 7⟩, ⟨0, 0⟩, ⟨0, 0⟩, ⟨0, 0⟩, ⟨0, 0⟩, ⟨0, 0⟩, ⟨0, 0⟩], 2, 8⟩, []⟩
      (by decide)⟩

/-- C20. Enqueue writes in bounds. On every state `s` of `s_Tasks` that the task queue
produces, `size ≤ allocated` holds; whenever growth is needed (`size >= allocated`) the
target computed in `int` (`new_size = (int) size`, then `new_size << 1` or 8) exceeds the old
`size`, so that after a `nate_ArrayBuffer_Alloc` that does not return 0 the capacity is above
the index to write; and whenever `s_add_task_sync` returns true, the index it wrote to, the
old `size`, is strictly below the capacity at the time of the write and inside the block. -/
theorem add_writes_in_bounds (s : ArrayBuffer nate_OneTask) (h : QueueReachable s)
    (function userdata : Nat) (heap : Option (Nat → nate_OneTask)) :
    s.size ≤ s.allocated ∧
    (s.allocated ≤ s.size →
      s.size < s_add_task_sync_new_size s.size ∧
      ∀ b1, (nate_ArrayBuffer_Alloc (some s) sizeof_nate_OneTask
            (s_add_task_sync_new_size s.size) heap).ret ≠ 0 →
        (nate_ArrayBuffer_Alloc (some s) sizeof_nate_OneTask
            (s_add_task_sync_new_size s.size) heap).st = some b1 →
        s.size < b1.allocated) ∧
    (∀ r, s_add_task_sync s function userdata heap = some r → r.ret = true →
      s.size < r.st.allocated ∧ s.size < (r.st.data.getD []).length) := by
  have hshape := queueReachable_shape s h
  refine ⟨hshape.1, fun hg => ?_, fun r hadd => (queueShape_add s function userdata heap r
    hshape hadd).2⟩
  obtain ⟨htarget, _⟩ := queueShape_target s hshape hg
  refine ⟨htarget, fun b1 hret hst => ?_⟩
  generalize s_add_task_sync_new_size s.size = ns at *
  rcases nate_ArrayBuffer_Alloc_cases s sizeof_nate_OneTask ns heap with
    ⟨h1, _⟩ | ⟨_, _, ha⟩ | ⟨_, fresh, _, ha⟩
  · omega
  · rw [ha] at hret
    exact absurd rfl hret
  · rw [ha, Option.some.injEq] at hst
    rw [← hst]
    exact htarget

theorem add_writes_in_bounds_witness :
    (8 : Nat) < s_add_task_sync_new_size 8 ∧
      (8 : Nat) < (⟨some (List.replicate 8 ⟨4, 5⟩ ++ List.replicate 8 ⟨0, 0⟩), 8, 16⟩ :
        ArrayBuffer nate_OneTask).allocated ∧
      ((8 : Nat) < (⟨some (List.replicate 8 ⟨4, 5⟩ ++ ⟨6, 7⟩ :: List.replicate 7 ⟨0, 0⟩),
          9, 16⟩ : ArrayBuffer nate_OneTask).allocated ∧
        (8 : Nat) < ((⟨some (List.replicate 8 ⟨4, 5⟩ ++ ⟨6, 7⟩ :: List.replicate 7 ⟨0, 0⟩),
          9, 16⟩ : ArrayBuffer nate_OneTask).data.getD []).length) := by
  have hreach : QueueReachable ⟨some (List.replicate 8 ⟨4, 5⟩), 8, 8⟩ := by
    have h1 := QueueReachable.enqueue (r := ⟨true, ⟨some (⟨4, 5⟩ :: List.replicate 7 ⟨0, 0⟩),
      1, 8⟩, [Event.realloc 128 true]⟩) 4 5 (some (fun _ => ⟨0, 0⟩)) QueueReachable.empty
      (by decide)
    have h2 := QueueReachable.enqueue (r := ⟨true, ⟨some (List.replicate 2 ⟨4, 5⟩ ++
      List.replicate 6 ⟨0, 0⟩), 2, 8⟩, []⟩) 4 5 none h1 (by decide)
    have h3 := QueueReachable.enqueue (r := ⟨true, ⟨some (List.replicate 3 ⟨4, 5⟩ ++
      List.replicate 5 ⟨0, 0⟩), 3, 8⟩, []⟩) 4 5 none h2 (by decide)
    have h4 := QueueReachable.enqueue (r := ⟨true, ⟨some (List.replicate 4 ⟨4, 5⟩ ++
      List.replicate 4 ⟨0, 0⟩), 4, 8⟩, []⟩) 4 5 none h3 (by decide)
    have h5 := QueueReachable.enqueue (r := ⟨true, ⟨some (List.replicate 5 ⟨4, 5⟩ ++
      List.replicate 3 ⟨0, 0⟩), 5, 8⟩, []⟩) 4 5 none h4 (by decide)
    have h6 := QueueReachable.enqueue (r := ⟨true, ⟨some (List.replicate 6 ⟨4, 5⟩ ++
      List.replicate 2 ⟨0, 0⟩), 6, 8⟩, []⟩) 4 5 none h5 (by decide)
    have h7 := QueueReachable.enqueue (r := ⟨true, ⟨some (List.replicate 7 ⟨4, 5⟩ ++
      List.replicate 1 ⟨0, 0⟩), 7, 8⟩, []⟩) 4 5 none h6 (by decide)
    exact QueueReachable.enqueue (r := ⟨true, ⟨some (List.replicate 8 ⟨4, 5⟩), 8, 8⟩, []⟩)
      4 5 none h7 (by decide)
  exact ⟨((add_writes_in_bounds _ hreach 6 7 (some (fun _ => ⟨0, 0⟩))).2.1 (Nat.le_refl 8)).1,
    ((add_writes_in_bounds _ hreach 6 7 (some (fun _ => ⟨0, 0⟩))).2.1 (Nat.le_refl 8)).2
      ⟨some (List.replicate 8 ⟨4, 5⟩ ++ List.replicate 8 ⟨0, 0⟩), 8, 16⟩
      (by decide) (by decide),
    (add_writes_in_bounds _ hreach 6 7 (some (fun _ => ⟨0, 0⟩))).2.2
      ⟨true, ⟨some (List.replicate 8 ⟨4, 5⟩ ++ ⟨6, 7⟩ :: List.replicate 7 ⟨0, 0⟩), 9, 16⟩,
        [Event.realloc 256 true]⟩
      (by decide) rfl⟩

end Nate
